import Mathlib

/-!
Verification development for the identity-resolution and dialogue-routing
core of the go-ai-chatbot repository.

The Go source is shallowly embedded: the external Supabase store is an
explicit `Store` value threaded through the operations, the language-model
collaborator and the business integrations are function parameters on the
`Router`, and the per-request HTTP plumbing is out of scope.  Strings are
modelled at the character level (the source handles ASCII payloads; Go's
byte indexing and Lean's character indexing coincide on them).
-/

set_option maxRecDepth 10000

namespace Chatbot

/-! ## String helpers (models of the `strings` package functions used) -/

/-- Model of Go `strings.ToLower` (ASCII case folding). -/
def goLower (s : String) : String := String.mk (s.toList.map Char.toLower)

/-- Model of Go `strings.TrimSpace`. -/
def goTrim (s : String) : String :=
  String.mk ((((s.toList.dropWhile Char.isWhitespace).reverse).dropWhile Char.isWhitespace).reverse)

/-- Model of Go `strings.Join`. -/
def goJoin (sep : String) : List String → String
  | [] => ""
  | [x] => x
  | x :: y :: xs => x ++ sep ++ goJoin sep (y :: xs)

/-- Whether `p` is a prefix of `s` (character lists). -/
def isPrefixL : List Char → List Char → Bool
  | [], _ => true
  | _ :: _, [] => false
  | p :: ps, c :: cs => p == c && isPrefixL ps cs

/-- First index at which `pat` occurs in `s`, if any (model of `strings.Index`). -/
def indexOfSub (pat : List Char) : List Char → Option Nat
  | [] => if pat.isEmpty then some 0 else none
  | c :: cs => if isPrefixL pat (c :: cs) then some 0 else (indexOfSub pat cs).map (· + 1)

/-- Model of Go `strings.Contains`. -/
def strContains (s pat : String) : Bool := (indexOfSub pat.toList s.toList).isSome

/-! ## Normalization utilities (src/util.go) -/

/-- `normalizeEmail` from util.go: `strings.ToLower(strings.TrimSpace(s))`. -/
def normalizeEmail (s : String) : String := goLower (goTrim s)

/-- `normalizePhone` from util.go: trim, then keep only digits, preserving an
initial `+` sign when present (the empty string stays empty). -/
def normalizePhone (s : String) : String :=
  match (goTrim s).toList with
  | [] => ""
  | '+' :: rest => "+" ++ String.mk (rest.filter Char.isDigit)
  | cs => String.mk (cs.filter Char.isDigit)

/-- `uniqueFields` from util.go: order-preserving de-duplication. -/
def uniqueFields (l : List String) : List String :=
  l.foldl (fun acc f => if acc.contains f then acc else acc ++ [f]) []

/-! ## String-keyed maps

Go `map[string]string` values (fact maps, session metadata) are modelled as
association lists with unique keys; absent keys read as `""` exactly like the
Go zero value. -/

/-- Read a key from a string map, `""` when absent (Go map zero value). -/
def mget (m : List (String × String)) (k : String) : String :=
  ((m.lookup k).getD "")

/-- Set a key in a string map (in-place update of a Go map entry); keys stay
unique because every map in the model is built with `mset`. -/
def mset : List (String × String) → String → String → List (String × String)
  | [], k, v => [(k, v)]
  | p :: m, k, v => if p.1 == k then (k, v) :: m else p :: mset m k v

/-- Delete a key from a string map (Go `delete`). -/
def mdel (m : List (String × String)) (k : String) : List (String × String) :=
  m.filter (fun p => p.1 != k)

/-! ## Pattern recognizers (the three regular expressions of part_000)

Each Go regexp is embedded as an explicit leftmost-first matcher: starting
positions are tried left to right, greedy quantifiers try the longest
extent first and backtrack, and `\b` compares word-character membership of
the characters on either side of a position, as in Go's regexp package. -/

/-- Membership in `\w` for the purposes of `\b`. -/
def isWordChar (c : Char) : Bool := c.isAlphanum || c == '_'

/-- Whether `\b` holds between the previous character (`none` at the start of
the text) and the character `first` at the current position. -/
def boundaryOk (prev : Option Char) (first : Char) : Bool :=
  match prev with
  | none => isWordChar first
  | some p => isWordChar p != isWordChar first

/-- Scan starting positions left to right with a position matcher. -/
def scanFind (f : Option Char → List Char → Option (List Char)) :
    Option Char → List Char → Option (List Char)
  | _, [] => none
  | prev, c :: rest =>
    match f prev (c :: rest) with
    | some r => some r
    | none => scanFind f (some c) rest

/-- Character class `[A-Z0-9._%+\-]` of `reEmail` (case-insensitive). -/
def isEmailLocalChar (c : Char) : Bool :=
  c.isAlphanum || c == '.' || c == '_' || c == '%' || c == '+' || c == '-'

/-- Character class `[A-Z0-9.\-]` of `reEmail` (case-insensitive). -/
def isEmailDomChar (c : Char) : Bool := c.isAlphanum || c == '.' || c == '-'

/-- Try `\.[A-Z]{2,}\b` after a domain prefix of length `l` taken from `dom`;
`rest3` is the text following the maximal domain-character run `dom`. -/
def emailSuffixAt (dom rest3 : List Char) (l : Nat) : Option (List Char) :=
  match dom.drop l with
  | '.' :: _ =>
    let rem := (dom.drop (l + 1)) ++ rest3
    let letters := rem.takeWhile Char.isAlpha
    let nxt := (rem.drop letters.length).head?
    let bOk : Bool := match nxt with | none => true | some c => ¬ isWordChar c
    if 2 ≤ letters.length ∧ bOk then some letters else none
  | _ => none

/-- Greedy backtracking over the length of the `[A-Z0-9.\-]+` domain run:
longest first, counting down to 1. -/
def emailSearch (dom rest3 : List Char) : Nat → Option (Nat × List Char)
  | 0 => none
  | l + 1 =>
    match emailSuffixAt dom rest3 (l + 1) with
    | some letters => some (l + 1, letters)
    | none => emailSearch dom rest3 l

/-- Match `reEmail` anchored at the current position. -/
def emailAt (prev : Option Char) (cs : List Char) : Option (List Char) :=
  match cs with
  | [] => none
  | c0 :: _ =>
    let loc := cs.takeWhile isEmailLocalChar
    if loc.isEmpty then none
    else if ¬ boundaryOk prev c0 then none
    else
      match cs.drop loc.length with
      | '@' :: rest2 =>
        let dom := rest2.takeWhile isEmailDomChar
        let rest3 := rest2.drop dom.length
        match emailSearch dom rest3 dom.length with
        | some (l, letters) => some (loc ++ '@' :: (dom.take l ++ '.' :: letters))
        | none => none
      | _ => none

/-- `reEmail.FindString`. -/
def findEmail (s : String) : Option String :=
  (scanFind emailAt none s.toList).map String.mk

/-- Go `\s` class: `[\t\n\f\r ]`. -/
def isGoSpace (c : Char) : Bool :=
  c == ' ' || c == '\t' || c == '\n' || c == '\r' || c == '\x0c'

/-- Character class `[\d\s\-]` of `rePhone`. -/
def isPhoneMid (c : Char) : Bool := c.isDigit || isGoSpace c || c == '-'

/-- Whether the final `\d\b` of `rePhone` succeeds with a middle part of
length `m` taken from the run `run` (the text after the run is `after`). -/
def phoneOkAt (run after : List Char) (m : Nat) : Bool :=
  (match run.get? m with | some c => c.isDigit | none => false) &&
  (match (match run.get? (m + 1) with | some c => some c | none => after.head?) with
   | none => true
   | some c => ¬ isWordChar c)

/-- Greedy backtracking over the length of `[\d\s\-]{8,}`: the counter `c`
encodes middle length `8 + c`, tried longest first down to 8. -/
def phoneSearchB (run after : List Char) : Nat → Option Nat
  | 0 => if phoneOkAt run after 8 then some 8 else none
  | c + 1 =>
    if phoneOkAt run after (8 + (c + 1)) then some (8 + (c + 1))
    else phoneSearchB run after c

/-- Match the part of `rePhone` after the first digit `d`. -/
def phoneCore (d : Char) (rest : List Char) : Option (List Char) :=
  let run := rest.takeWhile isPhoneMid
  let after := rest.drop run.length
  if run.length ≥ 9 then
    match phoneSearchB run after (run.length - 9) with
    | some m => some (d :: run.take (m + 1))
    | none => none
  else none

/-- Match `rePhone` anchored at the current position (`\b(\+?\d[\d\s\-]{8,}\d)\b`). -/
def phoneAt (prev : Option Char) (cs : List Char) : Option (List Char) :=
  match cs with
  | [] => none
  | c :: rest =>
    if ¬ boundaryOk prev c then none
    else if c == '+' then
      match rest with
      | d :: rest2 => if d.isDigit then (phoneCore d rest2).map ('+' :: ·) else none
      | [] => none
    else if c.isDigit then phoneCore c rest
    else none

/-- `rePhone.FindString`. -/
def findPhone (s : String) : Option String :=
  (scanFind phoneAt none s.toList).map String.mk

/-- Character class `[A-Z0-9\-]` of `reOrder` (case-insensitive). -/
def isOrderIdChar (c : Char) : Bool := c.isAlphanum || c == '-'

/-- Whether `\b` holds after an order-id of length `l` taken from `run`. -/
def orderBoundaryOkAt (run afterRun : List Char) (l : Nat) : Bool :=
  match run.get? (l - 1) with
  | none => false
  | some last =>
    match (match run.get? l with | some c => some c | none => afterRun.head?) with
    | none => isWordChar last
    | some nxt => isWordChar last != isWordChar nxt

/-- Greedy backtracking over the length of `[A-Z0-9\-]{4,}`: the counter `c`
encodes id length `4 + c`, tried longest first down to 4. -/
def orderIdSearchB (run afterRun : List Char) : Nat → Option Nat
  | 0 => if 4 ≤ run.length ∧ orderBoundaryOkAt run afterRun 4 then some 4 else none
  | c + 1 =>
    if 4 + (c + 1) ≤ run.length ∧ orderBoundaryOkAt run afterRun (4 + (c + 1)) then
      some (4 + (c + 1))
    else orderIdSearchB run afterRun c

/-- Case-insensitive literal match; the pattern is given lowercased.
Returns the rest of the input on success. -/
def matchCI : List Char → List Char → Option (List Char)
  | [], cs => some cs
  | _ :: _, [] => none
  | p :: ps, c :: cs => if c.toLower == p then matchCI ps cs else none

/-- Match `\s*#?\s*([A-Z0-9\-]{4,})\b` and return the captured group. -/
def orderAfterKeyword (rest : List Char) : Option (List Char) :=
  let r1 := rest.dropWhile isGoSpace
  let r2 := match r1 with | '#' :: t => t | _ => r1
  let r3 := r2.dropWhile isGoSpace
  let run := r3.takeWhile isOrderIdChar
  let afterRun := r3.drop run.length
  if 4 ≤ run.length then
    match orderIdSearchB run afterRun (run.length - 4) with
    | some l => some (run.take l)
    | none => none
  else none

/-- Match `reOrder` anchored at the current position, returning submatch 2;
the alternation tries the `order` keyword before `ord`, as written. -/
def orderAt (prev : Option Char) (cs : List Char) : Option (List Char) :=
  match cs with
  | [] => none
  | c0 :: _ =>
    if ¬ boundaryOk prev c0 then none
    else
      match matchCI "order".toList cs with
      | some rest =>
        (match orderAfterKeyword rest with
         | some g => some g
         | none =>
           match matchCI "ord".toList cs with
           | some rest2 => orderAfterKeyword rest2
           | none => none)
      | none =>
        match matchCI "ord".toList cs with
        | some rest2 => orderAfterKeyword rest2
        | none => none

/-- `reOrder.FindStringSubmatch`, projected to the order-id group. -/
def findOrderId (s : String) : Option String :=
  (scanFind orderAt none s.toList).map String.mk

/-! ## Data model (rows of the external store, from part_000) -/

/-- `AppUser` row.  `confidence_score` is a whole number in the source's
writes (20/50/80), modelled as `Nat`. -/
structure AppUser where
  id : String
  anonymousId : String := ""
  name : String := ""
  email : String := ""
  phone : String := ""
  identityTier : Nat := 0
  identityStatus : String := ""
  confidenceScore : Nat := 0
  primaryIdentifier : String := ""
  deriving DecidableEq, Inhabited

/-- `UserSession` row; the metadata map carries the pending-switch entries. -/
structure UserSession where
  sessionId : String
  userId : String
  metadata : List (String × String) := []
  deriving DecidableEq, Inhabited

/-- `IdentityKey` row: (key type, normalized key value) → owning user. -/
structure IdentityKeyRow where
  userId : String
  keyType : String
  keyValue : String
  verified : Bool := false
  deriving DecidableEq, Inhabited

/-- `Conversation` row; of its metadata map only the `facts` sub-map is read
or written by the core, so it is modelled as that sub-map. -/
structure Conversation where
  id : String
  userId : String
  status : String := "open"
  summary : String := ""
  lastIntent : String := ""
  channel : String := ""
  locale : String := ""
  facts : List (String × String) := []
  deriving DecidableEq, Inhabited

/-- `Message` row (only the fields the core reads back). -/
structure MessageRec where
  convId : String
  role : String
  content : String
  deriving DecidableEq, Inhabited

/-- `Event` row (append-only audit trail, never read back). -/
structure EventRow where
  userId : String
  eventType : String
  deriving DecidableEq, Inhabited

/-- The external store, as one explicit state value.  Lists are kept in
insertion order; message order is chronological. -/
structure Store where
  sessions : List UserSession := []
  users : List AppUser := []
  identityKeys : List IdentityKeyRow := []
  conversations : List Conversation := []
  messages : List MessageRec := []
  events : List EventRow := []
  idemKeys : List String := []
  deriving DecidableEq, Inhabited

/-! ## Store operations (SupabaseClient methods of part_000, made pure) -/

/-- `GetUserSession` (select by session key, limit 1). -/
def Store.getUserSession (st : Store) (sid : String) : Option UserSession :=
  st.sessions.find? (fun s => s.sessionId == sid)

/-- `UpsertUserSession` (`resolution=merge-duplicates` keyed on session id;
the `channel` and `last_seen_at` columns are outside the model, as nothing
in the core reads them back). -/
def Store.upsertUserSession (st : Store) (sid uid : String)
    (meta : List (String × String)) : Store :=
  let rows := st.sessions.map
    (fun s => if s.sessionId == sid then { s with userId := uid, metadata := meta } else s)
  if st.sessions.any (fun s => s.sessionId == sid) then
    { st with sessions := rows }
  else
    { st with sessions := st.sessions ++ [{ sessionId := sid, userId := uid, metadata := meta }] }

/-- `PatchUserSession`; the two call sites patch `user_id` and/or `metadata`,
so the patch is modelled with those optional fields (the `last_seen_at`
timestamp column is outside the model). -/
def Store.patchUserSession (st : Store) (sid : String) (newUid : Option String)
    (newMeta : Option (List (String × String))) : Store :=
  let rows := st.sessions.map
    (fun s => if s.sessionId == sid then
        { s with userId := newUid.getD s.userId, metadata := newMeta.getD s.metadata }
      else s)
  { st with sessions := rows }

/-- `GetAppUserByID` (returns an error in Go when absent; here `Option`). -/
def Store.getAppUserByID (st : Store) (uid : String) : Option AppUser :=
  st.users.find? (fun u => u.id == uid)

/-- `LookupIdentityKey` (select by type and value, limit 1). -/
def Store.lookupIdentityKey (st : Store) (t v : String) : Option IdentityKeyRow :=
  st.identityKeys.find? (fun r => r.keyType == t && r.keyValue == v)

/-- `InsertIdentityKey` (`resolution=ignore-duplicates`: first writer keeps
ownership of a (type, value) pair). -/
def Store.insertIdentityKey (st : Store) (uid t v : String) (verified : Bool) : Store :=
  if st.identityKeys.any (fun r => r.keyType == t && r.keyValue == v) then st
  else { st with identityKeys := st.identityKeys ++ [⟨uid, t, v, verified⟩] }

/-- `InsertEvent` (fire-and-forget; its error is discarded at every call site). -/
def Store.insertEvent (st : Store) (uid ev : String) : Store :=
  { st with events := st.events ++ [⟨uid, ev⟩] }

/-- `InsertMessage`. -/
def Store.insertMessage (st : Store) (cid role content : String) : Store :=
  { st with messages := st.messages ++ [⟨cid, role, content⟩] }

/-- `CreateAnonymousUser`: POST a tier-0 user; on a duplicate-key collision
on the anonymous anchor, fall back to reading the existing row.  The
database-generated id is modelled deterministically from the table size; the
`channel` argument only feeds the unread profile blob and is omitted. -/
def Store.createAnonymousUser (st : Store) (sid : String) : AppUser × Store :=
  match st.users.find? (fun u => u.anonymousId == sid) with
  | some u => (u, st)
  | none =>
    let u : AppUser :=
      { id := "user-" ++ toString st.users.length, anonymousId := sid,
        identityTier := 0, identityStatus := "anonymous", confidenceScore := 20,
        primaryIdentifier := sid }
    (u, { st with users := st.users ++ [u] })

/-- The `UpdateAppUser` patch assembled by `resolveIdentity`: optional
profile backfill plus the derived identity state. -/
structure UserPatch where
  email : Option String := none
  phone : Option String := none
  name : Option String := none
  identityTier : Nat
  identityStatus : String
  confidenceScore : Nat
  primaryIdentifier : String
  deriving DecidableEq, Inhabited

/-- Apply a `UserPatch` to a row. -/
def AppUser.applyPatch (u : AppUser) (p : UserPatch) : AppUser :=
  { u with
    email := p.email.getD u.email
    phone := p.phone.getD u.phone
    name := p.name.getD u.name
    identityTier := p.identityTier
    identityStatus := p.identityStatus
    confidenceScore := p.confidenceScore
    primaryIdentifier := p.primaryIdentifier }

/-- `UpdateAppUser`. -/
def Store.updateAppUser (st : Store) (uid : String) (p : UserPatch) : Store :=
  { st with users := st.users.map (fun u => if u.id == uid then u.applyPatch p else u) }

/-- `GetOrCreateOpenConversation`: first open conversation of the user, or a
new one (database-generated id modelled from the table size). -/
def Store.getOrCreateOpenConversation (st : Store) (uid _sid channel locale : String) :
    Conversation × Store :=
  match st.conversations.find? (fun c => c.userId == uid && c.status == "open") with
  | some c => (c, st)
  | none =>
    let c : Conversation :=
      { id := "conv-" ++ toString st.conversations.length, userId := uid, status := "open",
        channel := channel, locale := locale, facts := [] }
    (c, { st with conversations := st.conversations ++ [c] })

/-- `FetchRecentMessages`: newest `n` rows of the conversation, returned in
chronological order (Go selects descending then reverses). -/
def Store.fetchRecentMessages (st : Store) (cid : String) (n : Nat) :
    List (String × String) :=
  let l := (st.messages.filter (fun m => m.convId == cid)).map (fun m => (m.role, m.content))
  l.drop (l.length - n)

/-- `UpdateConversation`, at its single call site patching last intent,
summary and the facts sub-map of the metadata. -/
def Store.updateConversation (st : Store) (cid lastIntent summary : String)
    (facts : List (String × String)) : Store :=
  let rows := st.conversations.map
    (fun c => if c.id == cid then
        { c with lastIntent := lastIntent, summary := summary, facts := facts }
      else c)
  { st with conversations := rows }

/-- `UpsertIdempotency`: check-and-insert; `true` means already present. -/
def Store.upsertIdempotency (st : Store) (k : String) : Bool × Store :=
  if st.idemKeys.contains k then (true, st)
  else (false, { st with idemKeys := st.idemKeys ++ [k] })

/-! ## Router-facing types (part_000 and part_003) -/

/-- `Inbound` message. -/
structure Inbound where
  channel : String := ""
  locale : String := ""
  sessionID : String := ""
  userText : String := ""
  whatsAppMsgID : String := ""
  whatsAppFrom : String := ""
  deriving DecidableEq, Inhabited

/-- `RouteResult`. -/
structure RouteResult where
  intent : String
  reply : String
  conversationId : String
  extracted : List (String × String)
  extractorError : String := ""
  deriving DecidableEq, Inhabited

/-- `ToolPlan` (part_003). -/
structure ToolPlan where
  needsShopifyLookup : Bool := false
  needsZohoCRM : Bool := false
  needsZohoDesk : Bool := false
  needsBrevoEmail : Bool := false
  deriving DecidableEq, Inhabited

/-- `IntentSpec` (part_003); intents and fields are their Go string values.
The all-fields-empty default is the Go zero value used on a map miss. -/
structure IntentSpec where
  intent : String := ""
  requiredAnyOf : List (List String) := []
  requiredAllOf : List String := []
  maxClarifyQs : Nat := 0
  clarifyQuestions : List String := []
  toolPlan : ToolPlan := {}
  deriving DecidableEq, Inhabited

/-- `ShopifyOrder` (the fields the router reads). -/
structure ShopifyOrder where
  status : String := ""
  trackingURL : String := ""
  deriving DecidableEq, Inhabited

/-- The Zoho Desk integration's two methods. -/
structure ZohoDeskTool where
  ensureContact : AppUser → List (String × String) → Except String String
  createTicket : String → String → String → List (String × String) → Except String String

/-- The optional business integrations of `Tools` (tools.go), as abstract
fallible functions. -/
structure ToolSet where
  shopify : Option (List (String × String) → Except String (Option ShopifyOrder)) := none
  zohoCRM : Option (AppUser → Conversation → List (String × String) → Except String String) := none
  zohoDesk : Option ZohoDeskTool := none
  brevo : Option (String → String → String → List (String × String) → Except String String) := none

/-- The `Router`.  Go's single nullable `*OpenAIClient` is split into its two
methods: the optional structured extractor (`ExtractFactsForStorage`) and the
chat completion (`Chat`); `resolveIdentity`'s fresh `&Router{}` corresponds
to `llmExtract = none` (and it never invokes chat). -/
structure Router where
  specs : String → Option IntentSpec
  llmExtract : Option (String → Except String (List (String × String))) := none
  llmChat : String → String → List (String × String) → String → Except String String :=
    fun _ _ _ _ => Except.error "no llm"
  tools : Option ToolSet := none

/-! ## Fact extraction (Router.extractFacts, part_000) -/

/-- Step 1 of `Router.extractFacts`: seed `phone` from the channel-supplied
WhatsApp address. -/
def seedPhone (i : Inbound) (f : List (String × String)) : List (String × String) :=
  if i.whatsAppFrom ≠ "" then mset f "phone" (normalizePhone i.whatsAppFrom) else f

/-- The email recognizer statement of `extractFacts`. -/
def stepEmail (i : Inbound) (f : List (String × String)) : List (String × String) :=
  match findEmail i.userText with
  | some m => mset f "email" (normalizeEmail m)
  | none => f

/-- The phone recognizer statement: fires only when `phone` is still empty. -/
def stepPhone (i : Inbound) (f : List (String × String)) : List (String × String) :=
  match findPhone i.userText with
  | some m => if mget f "phone" = "" then mset f "phone" (normalizePhone m) else f
  | none => f

/-- The order-id recognizer statement. -/
def stepOrder (i : Inbound) (f : List (String × String)) : List (String × String) :=
  match findOrderId i.userText with
  | some oid => mset f "order_id" (goTrim oid)
  | none => f

/-- The `my name is …` phrase heuristic. -/
def stepName (i : Inbound) (f : List (String × String)) : List (String × String) :=
  match indexOfSub "my name is".toList (goLower i.userText).toList with
  | some idx =>
    let name := goTrim (String.mk (i.userText.toList.drop (idx + 10)))
    if 0 < name.length ∧ name.length < 60 then mset f "name" name else f
  | none => f

/-- The deterministic part of `extractFacts` (steps 1–2 of the algorithm). -/
def detFacts (i : Inbound) : List (String × String) :=
  stepName i (stepOrder i (stepPhone i (stepEmail i (seedPhone i []))))

/-- The language-model overlay: non-empty trimmed values override. -/
def applyOverlay (ext : List (String × String)) (f : List (String × String)) :
    List (String × String) :=
  ext.foldl (fun acc kv => let v := goTrim kv.2; if v ≠ "" then mset acc kv.1 v else acc) f

/-- `Router.extractFacts`, parameterized by the optional structured
extractor.  Returns the fact map and the non-fatal extractor error. -/
def extractFactsCore (llmExtract : Option (String → Except String (List (String × String))))
    (i : Inbound) : List (String × String) × String :=
  let f := detFacts i
  match llmExtract with
  | none => (f, "")
  | some e =>
    match e i.userText with
    | .error msg => (f, msg)
    | .ok ext => (applyOverlay ext f, "")

/-! ## Intent classification (classifyIntent, part_000) -/

/-- `classifyIntent`: the switch over `strings.Contains` tests, transcribed
case by case. -/
def classifyIntent (text : String) : String :=
  let t := goLower text
  if strContains t "track" || strContains t "where is my order" || strContains t "delivery"
      || strContains t "order status" then "order_status"
  else if strContains t "return" || strContains t "refund" || strContains t "exchange"
      || strContains t "cancel" then "return_refund"
  else if strContains t "complaint" || strContains t "damaged" || strContains t "wrong item"
      || strContains t "not received" then "complaint_support"
  else if strContains t "bulk" || strContains t "wholesale" || strContains t "call me"
      || strContains t "contact me" then "lead_capture"
  else if strContains t "compare" || strContains t "vs " then "comparison"
  else if strContains t "price" || strContains t "in stock" then "pricing_availability"
  else if strContains t "recommend" || strContains t "suggest" || strContains t "best for"
      || strContains t "help me choose" then "product_discovery"
  else "other"

/-- The fixed keyword-group order of the classifier, written as the ordered
table the specification describes (this definition follows the spec's words;
`classifyIntent` above follows the source). -/
def keywordTable : List (List String × String) :=
  [ (["track", "where is my order", "delivery", "order status"], "order_status"),
    (["return", "refund", "exchange", "cancel"], "return_refund"),
    (["complaint", "damaged", "wrong item", "not received"], "complaint_support"),
    (["bulk", "wholesale", "call me", "contact me"], "lead_capture"),
    (["compare", "vs "], "comparison"),
    (["price", "in stock"], "pricing_availability"),
    (["recommend", "suggest", "best for", "help me choose"], "product_discovery") ]

/-- First-match-wins scan over an ordered list of keyword groups. -/
def scanTable : List (List String × String) → String → String
  | [], _ => "other"
  | e :: rest, t => if e.1.any (fun kw => strContains t kw) then e.2 else scanTable rest t

/-- The classifier the specification describes: a first-match-wins scan over
`keywordTable`; unmatched text is `other`. -/
def classifyByFirstMatch (text : String) : String :=
  scanTable keywordTable (goLower text)

/-! ## Slot-filling gate (missingFields / askForMissing, part_000) -/

/-- Whether a single field of an any-of group is satisfied: a WhatsApp
channel phone implicitly satisfies a phone requirement. -/
def fieldOk (facts : List (String × String)) (i : Inbound) (f : String) : Bool :=
  (f == "phone" && i.whatsAppFrom != "") || mget facts f != ""

/-- `missingFields`. -/
def missingFields (spec : IntentSpec) (facts : List (String × String)) (i : Inbound) :
    List String :=
  let missingAll := spec.requiredAllOf.filter (fun f => mget facts f == "")
  let missingAny :=
    if spec.requiredAnyOf ≠ [] then
      if spec.requiredAnyOf.any (fun group => group.all (fieldOk facts i)) then []
      else (spec.requiredAnyOf.headD []).filter (fun f => mget facts f == "")
    else []
  uniqueFields (missingAll ++ missingAny)

/-- `Router.askForMissing`: the first configured clarifying question, else a
generic comma-joined list of the missing field names. -/
def askForMissing (spec : IntentSpec) (missing : List String) : String :=
  match spec.clarifyQuestions with
  | q :: _ => q
  | [] => "I need a bit more info: " ++ goJoin ", " missing

/-! ## Routing table (part_003) -/

/-- `IntentSpec` for `product_discovery`. -/
def productDiscoverySpec : IntentSpec :=
  { intent := "product_discovery", maxClarifyQs := 2,
    clarifyQuestions :=
      ["What’s your goal (e.g., bone health, sleep, immunity)?",
       "Any preferences (budget, form, allergies, vegetarian/vegan)?"] }

/-- `IntentSpec` for `order_status`. -/
def orderStatusSpec : IntentSpec :=
  { intent := "order_status",
    requiredAnyOf := [["order_id"], ["email"], ["phone"]],
    maxClarifyQs := 2,
    clarifyQuestions :=
      ["Please share your Order ID (best). If you don’t have it, share the email or phone used at checkout.",
       "If multiple orders exist, please share the approximate order date."],
    toolPlan := { needsShopifyLookup := true } }

/-- `IntentSpec` for `return_refund`. -/
def returnRefundSpec : IntentSpec :=
  { intent := "return_refund",
    requiredAllOf := ["order_id", "item", "reason"],
    maxClarifyQs := 2,
    clarifyQuestions :=
      ["Please share the Order ID.",
       "Which item is it, and what’s the reason for return/refund/exchange?"],
    toolPlan := { needsZohoDesk := true } }

/-- `IntentSpec` for `complaint_support`. -/
def complaintSupportSpec : IntentSpec :=
  { intent := "complaint_support",
    requiredAnyOf := [["phone"], ["email"]],
    maxClarifyQs := 2,
    clarifyQuestions :=
      ["Sorry about that—can you share your Order ID (if applicable) and what went wrong?",
       "What’s the best contact method—email or phone?"],
    toolPlan := { needsZohoDesk := true } }

/-- `IntentSpec` for `lead_capture`. -/
def leadCaptureSpec : IntentSpec :=
  { intent := "lead_capture",
    requiredAnyOf := [["phone"], ["email"]],
    maxClarifyQs := 2,
    clarifyQuestions :=
      ["Sure—what’s the best email or phone number to reach you?",
       "May I have your name as well?"],
    toolPlan := { needsZohoCRM := true } }

/-- `IntentSpec` for `other`. -/
def otherSpec : IntentSpec :=
  { intent := "other", maxClarifyQs := 1,
    clarifyQuestions :=
      ["Is this about (1) choosing a product, (2) order status, or (3) returns/support?"] }

/-- `RoutingTable` (part_003), as the lookup function of the Go map. -/
def RoutingTable : String → Option IntentSpec := fun intent =>
  if intent = "product_discovery" then some productDiscoverySpec
  else if intent = "order_status" then some orderStatusSpec
  else if intent = "return_refund" then some returnRefundSpec
  else if intent = "complaint_support" then some complaintSupportSpec
  else if intent = "lead_capture" then some leadCaptureSpec
  else if intent = "other" then some otherSpec
  else none

/-! ## Identity resolver (src/identity.go) -/

/-- The fixed conflict prompt. -/
def identityConflictReply : String :=
  "I found a different account for that email/phone. Reply SWITCH to use it, or GUEST to continue here."

/-- `identityCandidate`. -/
structure IdentityCandidate where
  keyType : String
  keyValue : String
  deriving DecidableEq, Inhabited

/-- `buildIdentityCandidates`: normalized email first, then normalized phone. -/
def buildIdentityCandidates (facts : List (String × String)) : List IdentityCandidate :=
  (if mget facts "email" ≠ "" then [⟨"email", goLower (mget facts "email")⟩] else []) ++
  (if mget facts "phone" ≠ "" then [⟨"phone", normalizePhone (mget facts "phone")⟩] else [])

/-- Result of `handlePendingSwitch`: interrupt reply, switched-to user id,
the in-memory session (Go mutates `session.Metadata`), and the store. -/
structure PendingOutcome where
  interrupt : String
  switchedTo : String
  session : UserSession
  store : Store

/-- The pending-switch metadata minus its three keys (Go's three `delete`s). -/
def clearPending (meta : List (String × String)) : List (String × String) :=
  mdel (mdel (mdel meta "pending_switch_to_user_id") "pending_switch_key_type")
    "pending_switch_key_value"

/-- `handlePendingSwitch` (identity.go lines 118–155). -/
def handlePendingSwitch (st : Store) (session : UserSession) (user : AppUser)
    (i : Inbound) : PendingOutcome :=
  let pendingID := mget session.metadata "pending_switch_to_user_id"
  if pendingID = "" then ⟨"", "", session, st⟩
  else
    let t := goTrim (goLower i.userText)
    let isConfirm := t == "switch" || t == "yes" || t == "confirm" || t == "use that account"
    let isDecline := t == "guest" || t == "no" || t == "stay" || t == "continue"
    if isConfirm then
      let meta := clearPending session.metadata
      let st := st.patchUserSession i.sessionID (some pendingID) (some meta)
      let st := st.insertEvent pendingID "identity.switch_confirmed"
      ⟨"", pendingID, { session with metadata := meta }, st⟩
    else if isDecline then
      let meta := clearPending session.metadata
      let st := st.patchUserSession i.sessionID none (some meta)
      let st := st.insertEvent user.id "identity.switch_declined"
      ⟨"", "", { session with metadata := meta }, st⟩
    else ⟨identityConflictReply, "", session, st⟩

/-- The pending-switch metadata written on a conflict (Go clones the session
metadata and adds the three keys). -/
def conflictMeta (meta : List (String × String)) (targetUid : String)
    (c : IdentityCandidate) : List (String × String) :=
  mset (mset (mset meta "pending_switch_to_user_id" targetUid)
      "pending_switch_key_type" c.keyType)
    "pending_switch_key_value" c.keyValue

/-- The candidate-matching loop of `resolveIdentity` (lines 57–84): returns
the store and, on a conflict, the interrupt; no further candidates are
examined once a conflict is raised. -/
def processCandidates (user : AppUser) (session : UserSession) (sid : String) :
    Store → List IdentityCandidate → Store × Option String
  | st, [] => (st, none)
  | st, c :: rest =>
    match st.lookupIdentityKey c.keyType c.keyValue with
    | some found =>
      if found.userId ≠ "" ∧ found.userId ≠ user.id then
        let st := st.patchUserSession sid none
          (some (conflictMeta session.metadata found.userId c))
        let st := st.insertEvent user.id "identity.conflict"
        (st, some identityConflictReply)
      else processCandidates user session sid st rest
    | none =>
      let st := st.insertIdentityKey user.id c.keyType c.keyValue false
      let st := st.insertEvent user.id "identity.key_added"
      processCandidates user session sid st rest

/-- `deriveIdentityState` (identity.go lines 168–182): tier, status,
confidence, primary identifier as a pure function of the user row. -/
def deriveIdentityState (user : AppUser) (sessionID : String) :
    Nat × String × Nat × String :=
  let hasName := goTrim user.name ≠ ""
  let hasContact := goTrim user.email ≠ "" ∨ goTrim user.phone ≠ ""
  if hasContact then
    if user.email ≠ "" then (2, "identified", 80, goLower user.email)
    else (2, "identified", 80, normalizePhone user.phone)
  else if hasName then (1, "named", 50, user.name)
  else (0, "anonymous", 20, "session:" ++ sessionID)

/-- The profile backfill of lines 86–98: patch in facts the user row lacks. -/
def backfillUser (user : AppUser) (facts : List (String × String)) :
    AppUser × (Option String × Option String × Option String) :=
  let (user, pe) :=
    if user.email = "" ∧ mget facts "email" ≠ "" then
      ({ user with email := mget facts "email" }, some (mget facts "email"))
    else (user, none)
  let (user, pp) :=
    if user.phone = "" ∧ mget facts "phone" ≠ "" then
      ({ user with phone := mget facts "phone" }, some (mget facts "phone"))
    else (user, none)
  let (user, pn) :=
    if user.name = "" ∧ mget facts "name" ≠ "" then
      ({ user with name := mget facts "name" }, some (mget facts "name"))
    else (user, none)
  (user, (pe, pp, pn))

/-- The bootstrap of `resolveIdentity` (lines 18–38): load the session and
its user, or create an anonymous user and session on first contact. -/
def resolveBoot (st : Store) (i : Inbound) :
    Except String (AppUser × UserSession × Store) :=
  match st.getUserSession i.sessionID with
  | none =>
    let (user, st1) := st.createAnonymousUser i.sessionID
    let st2 := st1.upsertUserSession i.sessionID user.id []
    .ok (user, ⟨i.sessionID, user.id, []⟩, st2)
  | some session =>
    match st.getAppUserByID session.userId with
    | some user => .ok (user, session, st)
    | none => .error "app_user not found"

/-- Candidate matching, profile backfill and tier derivation (lines 55–115):
the part of the turn after the pending-switch check settled the identity. -/
def resolveCandidatesAndPatch (st : Store) (i : Inbound) (user : AppUser)
    (session : UserSession) : AppUser × String × Store :=
  let facts := (extractFactsCore none i).1
  match processCandidates user session i.sessionID st (buildIdentityCandidates facts) with
  | (st, some interrupt) => (user, interrupt, st)
  | (st, none) =>
    let (user, (pe, pp, pn)) := backfillUser user facts
    let (tier, status, conf, primary) := deriveIdentityState user i.sessionID
    let patch : UserPatch :=
      { email := pe, phone := pp, name := pn, identityTier := tier,
        identityStatus := status, confidenceScore := conf,
        primaryIdentifier := primary }
    let st := st.updateAppUser user.id patch
    let st := st.upsertUserSession i.sessionID user.id session.metadata
    let st := st.insertEvent user.id "identity.resolved"
    let user := { user with identityTier := tier, identityStatus := status, confidenceScore := conf, primaryIdentifier := primary }
    (user, "", st)

/-- Lines 40–53: the pending-switch check and the optional rebinding to the
confirmed target, then the rest of the turn. -/
def resolveAfterBoot (st : Store) (i : Inbound) (user : AppUser)
    (session : UserSession) : Except String (AppUser × String × Store) :=
  let po := handlePendingSwitch st session user i
  if po.interrupt ≠ "" then .ok (user, po.interrupt, po.store)
  else if po.switchedTo ≠ "" then
    match po.store.getAppUserByID po.switchedTo with
    | some u2 =>
      .ok (resolveCandidatesAndPatch po.store i u2 { po.session with userId := po.switchedTo })
    | none => .error "app_user not found"
  else .ok (resolveCandidatesAndPatch po.store i user po.session)

/-- `resolveIdentity` (identity.go lines 17–116).  The fact extraction run
uses a fresh router with no language-model extractor (`&Router{}` in Go).
Store errors other than a missing `app_users` row cannot occur in the pure
model; the missing-row case is the `Except` error. -/
def resolveIdentity (st : Store) (i : Inbound) : Except String (AppUser × String × Store) :=
  match resolveBoot st i with
  | .error e => .error e
  | .ok (user, session, st) => resolveAfterBoot st i user session

/-! ## Dialogue router (Router.Handle and helpers, part_000) -/

/-- The fixed duplicate-delivery reply. -/
def duplicateIgnoredReply : String := "✅ Got it. (Duplicate message ignored.)"

/-- The fixed system instruction of `llmReply`. -/
def llmSystemBase : String :=
  "You are an ecommerce assistant. Be concise and helpful. " ++
  "Never invent order status, delivery dates, refunds, or policies. " ++
  "Keep every reply to 1-2 short sentences. " ++
  "Ask at most one clarifying question at a time. " ++
  "No preamble, no disclaimers, no repetition. " ++
  "If info is missing, ask only the single most important missing field."

/-- `Router.llmReply`: the language-model fallback reply, grounded in the
rolling summary, the recent history and the known facts.  A chat error
degrades to the fixed apology (the Go code logs it server-side). -/
def llmReply (rt : Router) (_intent : String) (summary : String)
    (recent : List (String × String)) (userText : String)
    (facts : List (String × String)) : String :=
  let h := recent.map (fun m =>
    if m.1 == "user" || m.1 == "assistant" || m.1 == "system" || m.1 == "developer" then m
    else ("assistant", m.2))
  let factsLine :=
    (if mget facts "order_id" ≠ "" then " order_id=" ++ mget facts "order_id" ++ ";" else "") ++
    (if mget facts "email" ≠ "" then " email=" ++ mget facts "email" ++ ";" else "") ++
    (if mget facts "phone" ≠ "" then " phone=" ++ mget facts "phone" ++ ";" else "") ++
    (if mget facts "name" ≠ "" then " name=" ++ mget facts "name" ++ ";" else "")
  let system := if factsLine ≠ "" then llmSystemBase ++ " Known facts:" ++ factsLine
    else llmSystemBase
  match rt.llmChat system summary h userText with
  | .ok reply => reply
  | .error _ => "Sorry — I ran into an error. Please try again."

/-- `buildTicketDescription`. -/
def buildTicketDescription (summary lastUserText : String)
    (facts : List (String × String)) : String :=
  let lines := (if summary ≠ "" then ["Chat summary:\n" ++ summary] else [])
  let lines := lines ++ ["\nLatest message:\n" ++ lastUserText]
  let lines := lines ++
    (if mget facts "order_id" ≠ "" then ["\nOrder ID: " ++ mget facts "order_id"] else [])
  let lines := lines ++ (if mget facts "item" ≠ "" then ["Item: " ++ mget facts "item"] else [])
  let lines := lines ++
    (if mget facts "reason" ≠ "" then ["Reason: " ++ mget facts "reason"] else [])
  goJoin "\n" lines

/-- `Router.executeToolsIfNeeded`.  Alongside the reply-or-error, the model
returns the names of the integrations actually invoked this turn; Go's
`tool != nil` guards become `Option` matches. -/
def executeToolsIfNeeded (rt : Router) (intent : String) (spec : IntentSpec)
    (user : AppUser) (conv : Conversation) (facts : List (String × String))
    (recent : List (String × String)) (userText : String) :
    Except String String × List String :=
  match spec.toolPlan.needsShopifyLookup, rt.tools.bind (·.shopify) with
  | true, some lookupOrder =>
    (match lookupOrder facts with
     | .error e => (.error e, ["shopify"])
     | .ok none =>
       (.ok "I couldn’t find a matching order. Please recheck the Order ID, or share the email/phone used at checkout.",
        ["shopify"])
     | .ok (some ord) =>
       let msg := "Here’s what I found:\n• Status: " ++ ord.status
       let msg := if ord.trackingURL ≠ "" then msg ++ "\n• Tracking: " ++ ord.trackingURL
         else msg
       (.ok msg, ["shopify"]))
  | _, _ =>
    match spec.toolPlan.needsZohoCRM, rt.tools.bind (·.zohoCRM) with
    | true, some upsertLead =>
      (match upsertLead user conv facts with
       | .error e => (.error e, ["zoho_crm"])
       | .ok _crmID =>
         (.ok "Thanks — I’ve saved your details. How would you like to proceed (product help, order status, or support)?",
          ["zoho_crm"]))
    | _, _ =>
      match spec.toolPlan.needsZohoDesk, rt.tools.bind (·.zohoDesk) with
      | true, some desk =>
        (match desk.ensureContact user facts with
         | .error e => (.error e, ["zoho_desk"])
         | .ok deskContactID =>
           let subject := if intent = "return_refund" then "Return/Refund request"
             else "Support request"
           let desc := buildTicketDescription conv.summary userText facts
           match desk.createTicket deskContactID subject desc
               [("Conversation_ID", conv.id), ("Order_ID", mget facts "order_id"),
                ("Channel", conv.channel)] with
           | .error e => (.error e, ["zoho_desk"])
           | .ok ticketID =>
             if ticketID = "" then
               (.ok "I’ve captured the details. A support agent will get back to you shortly.",
                ["zoho_desk"])
             else
               (.ok ("I’ve created a support ticket: " ++ ticketID ++ "\nWe’ll follow up soon."),
                ["zoho_desk"]))
      | _, _ =>
        match spec.toolPlan.needsBrevoEmail, rt.tools.bind (·.brevo) with
        | true, some sendMail =>
          let email := mget facts "email"
          if email = "" then (.error "missing email for brevo", [])
          else
            (match sendMail email "Support update" "Thanks—we received your request."
                [("conversation_id", conv.id)] with
             | .error e => (.error e, ["brevo"])
             | .ok _ => (.ok "Done — I’ve sent the details to your email.", ["brevo"]))
        | _, _ => (.ok (llmReply rt intent conv.summary recent userText facts), [])

/-- `Router.persistAssistant`: append the assistant message, extend the
rolling summary truncated to its trailing 1500 characters, and patch the
conversation row.  (Its Go `facts` parameter is unused; the facts travel in
the already-updated conversation metadata.) -/
def persistAssistant (st : Store) (conv : Conversation) (intent reply : String) : Store :=
  let st := st.insertMessage conv.id "assistant" reply
  let s0 := if conv.summary ≠ "" then conv.summary ++ "\n" else conv.summary
  let s1 := s0 ++ "A: " ++ reply
  let newSummary :=
    if 1500 < s1.length then String.mk (s1.toList.drop (s1.length - 1500)) else s1
  st.updateConversation conv.id intent newSummary conv.facts

/-- The per-turn fact merge (step 6 of `Handle`): turn facts overwrite the
conversation's persistent facts only with non-empty values. -/
def mergeFacts (base turn : List (String × String)) : List (String × String) :=
  turn.foldl (fun acc kv => if kv.2 ≠ "" then mset acc kv.1 kv.2 else acc) base

/-- Writing the merged facts back into the conversation metadata
(`setFactsInMetadata` drops empty values). -/
def Conversation.withFacts (conv : Conversation) (facts : List (String × String)) :
    Conversation :=
  { conv with facts := facts.filter (fun kv => kv.2 ≠ "") }

/-- The spec lookup of `Handle`: a missing intent falls back to `other`
(and to the zero-value spec when `other` is itself unconfigured). -/
def resolveSpec (rt : Router) (intent0 : String) : String × IntentSpec :=
  match rt.specs intent0 with
  | some s => (intent0, s)
  | none => ("other", (rt.specs "other").getD {})

/-- Steps 3–10 of `Router.Handle`, after identity resolution succeeded with
no interrupt: memory load, fact extraction, classification, fact merge,
slot-filling gate, tool dispatch with LLM fallback, and persistence.
The third component of the result lists the integrations invoked. -/
def Router.handleResolved (rt : Router) (st : Store) (i : Inbound) (user : AppUser)
    (conv : Conversation) : Except String (RouteResult × Store × List String) :=
  let recent := st.fetchRecentMessages conv.id 10
  let (facts, extractorErr) := extractFactsCore rt.llmExtract i
  let convFacts := mergeFacts conv.facts facts
  let conv := conv.withFacts convFacts
  let (intent, spec) := resolveSpec rt (classifyIntent i.userText)
  let missing := missingFields spec convFacts i
  if missing ≠ [] then
    let reply := askForMissing spec missing
    let st := persistAssistant st conv intent reply
    .ok ({ intent := intent, reply := reply, conversationId := conv.id, extracted := facts,
           extractorError := extractorErr }, st, [])
  else
    let (toolOut, log) := executeToolsIfNeeded rt intent spec user conv convFacts recent
      i.userText
    let reply := match toolOut with
      | .ok r => r
      | .error _ => llmReply rt intent conv.summary recent i.userText convFacts
    let st := persistAssistant st conv intent reply
    .ok ({ intent := intent, reply := reply, conversationId := conv.id, extracted := facts,
           extractorError := extractorErr }, st, log)

/-- Steps 1–2 of `Router.Handle`: identity resolution, conversation
retrieval, immediate persistence of the inbound message, and the interrupt
short-circuit. -/
def Router.handleAfterGate (rt : Router) (st : Store) (i : Inbound) :
    Except String (RouteResult × Store × List String) :=
  match resolveIdentity st i with
  | .error e => .error e
  | .ok (user, interruptReply, st) =>
    let (conv, st) := st.getOrCreateOpenConversation user.id i.sessionID i.channel i.locale
    let st := st.insertMessage conv.id "user" i.userText
    if interruptReply ≠ "" then
      let st := st.insertMessage conv.id "assistant" interruptReply
      .ok ({ intent := "other", reply := interruptReply, conversationId := conv.id,
             extracted := [] }, st, [])
    else rt.handleResolved st i user conv

/-- `Router.Handle`: the idempotency gate for channel-native message ids,
then the rest of the turn. -/
def Router.handle (rt : Router) (st : Store) (i : Inbound) :
    Except String (RouteResult × Store × List String) :=
  let (dup, st) :=
    if i.whatsAppMsgID ≠ "" then st.upsertIdempotency ("wa_msg:" ++ i.whatsAppMsgID)
    else (false, st)
  if dup then
    .ok ({ intent := "other", reply := duplicateIgnoredReply, conversationId := "",
           extracted := [] }, st, [])
  else rt.handleAfterGate st i

/-! ## Map lemmas -/

theorem mget_cons (p : String × String) (m : List (String × String)) (k : String) :
    mget (p :: m) k = if k = p.1 then p.2 else mget m k := by
  by_cases h : k = p.1
  · simp [mget, List.lookup, h]
  · have hb : (k == p.1) = false := by simp [beq_iff_eq, h]
    simp [mget, List.lookup, hb, h]

theorem mget_mset_self (m : List (String × String)) (k v : String) :
    mget (mset m k v) k = v := by
  induction m with
  | nil => simp [mset, mget_cons, mget, List.lookup]
  | cons p m ih =>
    by_cases h : p.1 = k
    · simp [mset, h, mget_cons]
    · have hb : (p.1 == k) = false := by simp [beq_iff_eq, h]
      have hk : ¬ (k = p.1) := fun hh => h hh.symm
      simp [mset, hb, mget_cons, hk, ih]

theorem mget_nil (k : String) : mget [] k = "" := rfl

theorem mget_mset_ne (m : List (String × String)) (k k' v : String) (h : k' ≠ k) :
    mget (mset m k v) k' = mget m k' := by
  induction m with
  | nil => simp [mset, mget_cons, mget_nil, h]
  | cons p m ih =>
    by_cases hp : p.1 = k
    · have hb : (p.1 == k) = true := by simp [beq_iff_eq, hp]
      have hk : ¬ (k' = p.1) := by rw [hp]; exact h
      simp [mset, hb, mget_cons, h, hk]
    · have hb : (p.1 == k) = false := by simp [beq_iff_eq, hp]
      simp [mset, hb, mget_cons, ih]

theorem mget_mdel_self (m : List (String × String)) (k : String) :
    mget (mdel m k) k = "" := by
  induction m with
  | nil => simp [mdel, mget, List.lookup]
  | cons p m ih =>
    by_cases hp : p.1 = k
    · simpa [mdel, List.filter_cons, bne, hp] using ih
    · have hk : ¬ (k = p.1) := fun hh => hp hh.symm
      simpa [mdel, List.filter_cons, bne, hp, mget_cons, hk] using ih

theorem mget_mdel_ne (m : List (String × String)) (k k' : String) (h : k' ≠ k) :
    mget (mdel m k) k' = mget m k' := by
  induction m with
  | nil => simp [mdel]
  | cons p m ih =>
    simp only [mdel, bne] at ih ⊢
    by_cases hp : p.1 = k
    · have hk : ¬ (k' = p.1) := by rw [hp]; exact h
      simp [List.filter_cons, bne, hp, mget_cons, hk, ih, h]
    · simp [List.filter_cons, bne, hp, mget_cons, ih]

/-! ## Pending-switch metadata lemmas -/

theorem clearPending_target (meta : List (String × String)) :
    mget (clearPending meta) "pending_switch_to_user_id" = "" := by
  unfold clearPending
  rw [mget_mdel_ne _ _ _ (by decide), mget_mdel_ne _ _ _ (by decide), mget_mdel_self]

theorem clearPending_keyType (meta : List (String × String)) :
    mget (clearPending meta) "pending_switch_key_type" = "" := by
  unfold clearPending
  rw [mget_mdel_ne _ _ _ (by decide), mget_mdel_self]

theorem clearPending_keyValue (meta : List (String × String)) :
    mget (clearPending meta) "pending_switch_key_value" = "" := by
  unfold clearPending
  rw [mget_mdel_self]

theorem clearPending_other (meta : List (String × String)) (k : String)
    (h1 : k ≠ "pending_switch_to_user_id") (h2 : k ≠ "pending_switch_key_type")
    (h3 : k ≠ "pending_switch_key_value") :
    mget (clearPending meta) k = mget meta k := by
  unfold clearPending
  rw [mget_mdel_ne _ _ _ h3, mget_mdel_ne _ _ _ h2, mget_mdel_ne _ _ _ h1]

theorem conflictMeta_target (meta : List (String × String)) (uid : String)
    (c : IdentityCandidate) :
    mget (conflictMeta meta uid c) "pending_switch_to_user_id" = uid := by
  unfold conflictMeta
  rw [mget_mset_ne _ _ _ _ (by decide), mget_mset_ne _ _ _ _ (by decide), mget_mset_self]

theorem conflictMeta_keyType (meta : List (String × String)) (uid : String)
    (c : IdentityCandidate) :
    mget (conflictMeta meta uid c) "pending_switch_key_type" = c.keyType := by
  unfold conflictMeta
  rw [mget_mset_ne _ _ _ _ (by decide), mget_mset_self]

theorem conflictMeta_keyValue (meta : List (String × String)) (uid : String)
    (c : IdentityCandidate) :
    mget (conflictMeta meta uid c) "pending_switch_key_value" = c.keyValue := by
  unfold conflictMeta
  rw [mget_mset_self]

/-! ## Store projection lemmas -/

theorem sessions_insertEvent (st : Store) (u e : String) :
    (st.insertEvent u e).sessions = st.sessions := rfl

theorem sessions_insertMessage (st : Store) (c r t : String) :
    (st.insertMessage c r t).sessions = st.sessions := rfl

theorem sessions_insertIdentityKey (st : Store) (u t v : String) (b : Bool) :
    (st.insertIdentityKey u t v b).sessions = st.sessions := by
  unfold Store.insertIdentityKey; split <;> rfl

theorem sessions_updateAppUser (st : Store) (u : String) (p : UserPatch) :
    (st.updateAppUser u p).sessions = st.sessions := rfl

theorem users_insertEvent (st : Store) (u e : String) :
    (st.insertEvent u e).users = st.users := rfl

theorem users_insertMessage (st : Store) (c r t : String) :
    (st.insertMessage c r t).users = st.users := rfl

theorem users_insertIdentityKey (st : Store) (u t v : String) (b : Bool) :
    (st.insertIdentityKey u t v b).users = st.users := by
  unfold Store.insertIdentityKey; split <;> rfl

theorem users_patchUserSession (st : Store) (sid : String) (nu : Option String)
    (nm : Option (List (String × String))) :
    (st.patchUserSession sid nu nm).users = st.users := rfl

theorem identityKeys_insertEvent (st : Store) (u e : String) :
    (st.insertEvent u e).identityKeys = st.identityKeys := rfl

theorem identityKeys_patchUserSession (st : Store) (sid : String) (nu : Option String)
    (nm : Option (List (String × String))) :
    (st.patchUserSession sid nu nm).identityKeys = st.identityKeys := rfl

theorem idemKeys_insertEvent (st : Store) (u e : String) :
    (st.insertEvent u e).idemKeys = st.idemKeys := rfl

theorem idemKeys_insertMessage (st : Store) (c r t : String) :
    (st.insertMessage c r t).idemKeys = st.idemKeys := rfl

theorem idemKeys_insertIdentityKey (st : Store) (u t v : String) (b : Bool) :
    (st.insertIdentityKey u t v b).idemKeys = st.idemKeys := by
  unfold Store.insertIdentityKey; split <;> rfl

theorem idemKeys_patchUserSession (st : Store) (sid : String) (nu : Option String)
    (nm : Option (List (String × String))) :
    (st.patchUserSession sid nu nm).idemKeys = st.idemKeys := rfl

theorem idemKeys_updateAppUser (st : Store) (u : String) (p : UserPatch) :
    (st.updateAppUser u p).idemKeys = st.idemKeys := rfl

theorem idemKeys_updateConversation (st : Store) (cid li s : String)
    (facts : List (String × String)) :
    (st.updateConversation cid li s facts).idemKeys = st.idemKeys := rfl

theorem idemKeys_upsertUserSession (st : Store) (sid uid : String)
    (meta : List (String × String)) :
    (st.upsertUserSession sid uid meta).idemKeys = st.idemKeys := by
  unfold Store.upsertUserSession; split <;> rfl

theorem idemKeys_createAnonymousUser (st : Store) (sid : String) :
    ((st.createAnonymousUser sid).2).idemKeys = st.idemKeys := by
  unfold Store.createAnonymousUser
  cases st.users.find? (fun u => u.anonymousId == sid) <;> rfl

theorem idemKeys_getOrCreateOpenConversation (st : Store) (uid sid ch lo : String) :
    ((st.getOrCreateOpenConversation uid sid ch lo).2).idemKeys = st.idemKeys := by
  unfold Store.getOrCreateOpenConversation
  cases st.conversations.find? (fun c => c.userId == uid && c.status == "open") <;> rfl

/-- Patching a session only rewrites the session row in place: the lookup
after the patch is the patched lookup before it. -/
theorem getUserSession_patchUserSession (st : Store) (sid : String)
    (nu : Option String) (nm : Option (List (String × String))) :
    (st.patchUserSession sid nu nm).getUserSession sid =
      (st.getUserSession sid).map
        (fun s => { s with userId := nu.getD s.userId, metadata := nm.getD s.metadata }) := by
  unfold Store.patchUserSession Store.getUserSession
  induction st.sessions with
  | nil => rfl
  | cons s l ih =>
    by_cases h : s.sessionId == sid
    · simp [List.find?, h]
    · simp only [List.map_cons, List.find?, h, if_false, Bool.false_eq_true]
      exact ih

theorem getUserSession_insertEvent (st : Store) (u e sid : String) :
    (st.insertEvent u e).getUserSession sid = st.getUserSession sid := rfl

theorem getUserSession_insertIdentityKey (st : Store) (u t v sid : String) (b : Bool) :
    (st.insertIdentityKey u t v b).getUserSession sid = st.getUserSession sid := by
  unfold Store.insertIdentityKey; split <;> rfl

/-! ## Claim C8: tier derivation -/

/-- C8: `deriveIdentityState` is a pure function of the user row and session
id.  A user with any contact info (non-blank email or phone) is tier 2 /
"identified" / confidence 80, with primary identifier the lowercased
(normalized) email when the email field is present, else the normalized
phone; otherwise a user with a non-blank name is tier 1 / "named" / 50 with
the name as primary; otherwise tier 0 / "anonymous" / 20 with the synthetic
`session:<id>` primary. -/
theorem c8_derive_identity_state (u : AppUser) (sid : String) :
    ((goTrim u.email ≠ "" ∨ goTrim u.phone ≠ "") →
      deriveIdentityState u sid =
        (2, "identified", 80,
          if u.email ≠ "" then goLower u.email else normalizePhone u.phone)) ∧
    (¬ (goTrim u.email ≠ "" ∨ goTrim u.phone ≠ "") → goTrim u.name ≠ "" →
      deriveIdentityState u sid = (1, "named", 50, u.name)) ∧
    (¬ (goTrim u.email ≠ "" ∨ goTrim u.phone ≠ "") → ¬ goTrim u.name ≠ "" →
      deriveIdentityState u sid = (0, "anonymous", 20, "session:" ++ sid)) := by
  refine ⟨fun hc => ?_, fun hc hn => ?_, fun hc hn => ?_⟩
  · simp only [deriveIdentityState]
    rw [if_pos hc]
    split <;> rfl
  · simp only [deriveIdentityState]
    rw [if_neg hc, if_pos hn]
  · simp only [deriveIdentityState]
    rw [if_neg hc, if_neg hn]

/-- Witness for C8 at three concrete users, one per tier. -/
theorem c8_derive_identity_state_witness :
    deriveIdentityState { id := "u1", email := "A@b.com" } "s1" =
      (2, "identified", 80, "a@b.com") ∧
    deriveIdentityState { id := "u2", name := "Ana" } "s1" = (1, "named", 50, "Ana") ∧
    deriveIdentityState { id := "u3" } "s1" = (0, "anonymous", 20, "session:s1") := by
  refine ⟨?_, ?_, ?_⟩
  · have h := (c8_derive_identity_state { id := "u1", email := "A@b.com" } "s1").1
      (Or.inl (by decide))
    rw [h]; decide
  · have h := (c8_derive_identity_state { id := "u2", name := "Ana" } "s1").2.1
      (by decide) (by decide)
    rw [h]
  · have h := (c8_derive_identity_state { id := "u3" } "s1").2.2 (by decide) (by decide)
    rw [h]; rfl

/-! ## Claim C6: the rolling summary is bounded -/

/-- The summary written by `persistAssistant` never exceeds 1500 characters. -/
theorem persistAssistant_summary_le (s reply : String) :
    (if 1500 < (s ++ "A: " ++ reply).length then
        String.mk ((s ++ "A: " ++ reply).toList.drop ((s ++ "A: " ++ reply).length - 1500))
      else (s ++ "A: " ++ reply)).length ≤ 1500 := by
  set s1 := s ++ "A: " ++ reply with hs1
  by_cases h : 1500 < s1.length
  · rw [if_pos h]
    have h1 : (String.mk (s1.toList.drop (s1.length - 1500))).length =
        (s1.toList.drop (s1.length - 1500)).length := rfl
    rw [h1, List.length_drop]
    have h2 : s1.toList.length = s1.length := rfl
    omega
  · rw [if_neg h]; omega

/-- C6: after the per-turn persistence step of any turn, every stored row of
the persisted conversation has a rolling summary of at most 1500 characters,
whatever the incoming summary was; since the bound holds for an arbitrary
incoming store and conversation, it holds after any number of turns. -/
theorem c6_summary_bounded (st : Store) (conv : Conversation) (intent reply : String)
    (c : Conversation) (hc : c ∈ (persistAssistant st conv intent reply).conversations)
    (hid : c.id = conv.id) : c.summary.length ≤ 1500 := by
  simp only [persistAssistant, Store.updateConversation, Store.insertMessage] at hc
  rw [List.mem_map] at hc
  obtain ⟨a, _ha, rfl⟩ := hc
  by_cases h : a.id == conv.id
  · simp only [if_pos h]
    exact persistAssistant_summary_le
      (if conv.summary ≠ "" then conv.summary ++ "\n" else conv.summary) reply
  · simp only [if_neg h] at hid ⊢
    exact absurd hid (by simpa [beq_iff_eq] using h)

/-- Witness for C6: one concrete turn on a one-conversation store. -/
theorem c6_summary_bounded_witness :
    ({ id := "c1", userId := "u1", lastIntent := "other", summary := "A: ok!" } :
      Conversation).summary.length ≤ 1500 :=
  c6_summary_bounded { conversations := [{ id := "c1", userId := "u1" }] }
    { id := "c1", userId := "u1" } "other" "ok!"
    { id := "c1", userId := "u1", lastIntent := "other", summary := "A: ok!" }
    (by decide) rfl

/-! ## Claim C7: first-match-wins intent classification -/

/-- C7: `classifyIntent` is a deterministic first-match-wins scan over the
fixed keyword-group order of `keywordTable` (order status, return/refund,
complaint/support, lead capture, comparison, pricing/availability, product
discovery): text matching several groups classifies as the earliest group in
that precedence, and text matching no group classifies as `other`. -/
theorem c7_classify_first_match (text : String) :
    classifyIntent text = classifyByFirstMatch text ∧
    ((keywordTable.all fun e => e.1.all fun kw => ! strContains (goLower text) kw) = true →
      classifyIntent text = "other") := by
  constructor
  · simp only [classifyIntent, classifyByFirstMatch, keywordTable, scanTable,
      List.any_cons, List.any_nil, Bool.or_false, Bool.or_assoc]
  · intro h
    simp only [keywordTable, List.all_cons, List.all_nil, Bool.and_true,
      Bool.and_eq_true, Bool.not_eq_true'] at h
    obtain ⟨⟨h1, h2, h3, h4⟩, ⟨h5, h6, h7, h8⟩, ⟨h9, h10, h11, h12⟩, ⟨h13, h14, h15, h16⟩,
      ⟨h17, h18⟩, ⟨h19, h20⟩, ⟨h21, h22, h23, h24⟩⟩ := h
    simp [classifyIntent, h1, h2, h3, h4, h5, h6, h7, h8, h9, h10, h11, h12, h13, h14,
      h15, h16, h17, h18, h19, h20, h21, h22, h23, h24]

/-- Witness for C7: a text matching both the return/refund and the pricing
groups classifies as the earlier group, and an unmatched text as `other`. -/
theorem c7_classify_first_match_witness :
    classifyIntent "what is the price of a refund" = "return_refund" ∧
    classifyIntent "hello there" = "other" := by
  constructor
  · have h := (c7_classify_first_match "what is the price of a refund").1
    rw [h]; rfl
  · exact (c7_classify_first_match "hello there").2 (by decide)

/-! ## Claim C4: the channel-seeded phone -/

theorem mget_stepEmail_phone (i : Inbound) (f : List (String × String)) :
    mget (stepEmail i f) "phone" = mget f "phone" := by
  unfold stepEmail
  cases findEmail i.userText with
  | none => rfl
  | some m => exact mget_mset_ne f "email" "phone" (normalizeEmail m) (by decide)

theorem mget_stepOrder_phone (i : Inbound) (f : List (String × String)) :
    mget (stepOrder i f) "phone" = mget f "phone" := by
  unfold stepOrder
  cases findOrderId i.userText with
  | none => rfl
  | some m => exact mget_mset_ne f "order_id" "phone" (goTrim m) (by decide)

theorem mget_stepName_phone (i : Inbound) (f : List (String × String)) :
    mget (stepName i f) "phone" = mget f "phone" := by
  unfold stepName
  cases indexOfSub "my name is".toList (goLower i.userText).toList with
  | none => rfl
  | some idx =>
    simp only []
    split
    · exact mget_mset_ne f "name" "phone" _ (by decide)
    · rfl

/-- The phone recognizer never overrides an already-seeded phone. -/
theorem stepPhone_of_seeded (i : Inbound) (f : List (String × String))
    (h : mget f "phone" ≠ "") : stepPhone i f = f := by
  unfold stepPhone
  cases findPhone i.userText with
  | none => rfl
  | some m => simp only [if_neg h]

theorem mget_seedPhone (i : Inbound) (f : List (String × String))
    (h : i.whatsAppFrom ≠ "") :
    mget (seedPhone i f) "phone" = normalizePhone i.whatsAppFrom := by
  unfold seedPhone
  rw [if_pos h, mget_mset_self]

/-- The deterministic extraction maps `phone` to the normalized channel
phone whenever the channel supplied one that normalizes to a non-empty
string. -/
theorem mget_detFacts_phone (i : Inbound) (h : i.whatsAppFrom ≠ "")
    (hn : normalizePhone i.whatsAppFrom ≠ "") :
    mget (detFacts i) "phone" = normalizePhone i.whatsAppFrom := by
  unfold detFacts
  have hseed := mget_seedPhone i [] h
  have hem : mget (stepEmail i (seedPhone i [])) "phone" = normalizePhone i.whatsAppFrom := by
    rw [mget_stepEmail_phone, hseed]
  have hne : mget (stepEmail i (seedPhone i [])) "phone" ≠ "" := by rw [hem]; exact hn
  rw [mget_stepName_phone, mget_stepOrder_phone, stepPhone_of_seeded i _ hne, hem]

/-- An overlay that carries no non-empty `phone` value leaves `phone`
untouched. -/
theorem mget_applyOverlay_phone (ext : List (String × String))
    (f : List (String × String))
    (h : ∀ kv ∈ ext, kv.1 = "phone" → goTrim kv.2 = "") :
    mget (applyOverlay ext f) "phone" = mget f "phone" := by
  induction ext generalizing f with
  | nil => rfl
  | cons kv ext ih =>
    have hrest : ∀ p ∈ ext, p.1 = "phone" → goTrim p.2 = "" :=
      fun p hp => h p (List.mem_cons_of_mem kv hp)
    show mget (applyOverlay ext (if goTrim kv.2 ≠ "" then mset f kv.1 (goTrim kv.2) else f))
        "phone" = mget f "phone"
    by_cases hv : goTrim kv.2 ≠ ""
    · rw [if_pos hv, ih _ hrest]
      have hk : kv.1 ≠ "phone" := fun hk => hv (h kv (List.mem_cons_self kv ext) hk)
      exact mget_mset_ne f kv.1 "phone" (goTrim kv.2) (fun hh => hk hh.symm)
    · rw [if_neg hv, ih _ hrest]

/-- The inbound message and extractor of the C4 counterexample: a WhatsApp
turn with a verified channel phone and a model overlay returning a
different non-empty phone. -/
def c4Inbound : Inbound :=
  { channel := "whatsapp_meta", sessionID := "wa:15551234567", userText := "hello",
    whatsAppFrom := "+15551234567" }

/-- The structured extractor of the C4 counterexample. -/
def c4Extractor : String → Except String (List (String × String)) :=
  fun _ => .ok [("phone", "0000000000")]

/-- C4 counterexample: with a channel-supplied verified phone, the fact map
after extraction carries the language-model overlay's phone, not the seeded
normalized channel phone — the overlay overrides the seeded value, contrary
to the claim that no later extraction step overrides it. -/
theorem c4_seeded_phone_counterexample :
    normalizePhone c4Inbound.whatsAppFrom = "+15551234567" ∧
    mget (extractFactsCore (some c4Extractor) c4Inbound).1 "phone" = "0000000000" ∧
    ("0000000000" : String) ≠ "+15551234567" := by
  refine ⟨rfl, ?_, by decide⟩
  rfl

/-- C4 as amended: when the channel supplies a phone whose normalization is
non-empty, extraction with no language-model extractor maps `phone` to the
normalized channel phone — the regex recognizer never overrides the seeded
value — and with an extractor attached the seeded value still stands
whenever the extractor fails or returns no non-empty `phone`; only a
non-empty model `phone` takes precedence over it. -/
theorem c4_seeded_phone_amended (i : Inbound) (h : i.whatsAppFrom ≠ "")
    (hn : normalizePhone i.whatsAppFrom ≠ "") :
    (mget (extractFactsCore none i).1 "phone" = normalizePhone i.whatsAppFrom) ∧
    (∀ e msg, e i.userText = .error msg →
      mget (extractFactsCore (some e) i).1 "phone" = normalizePhone i.whatsAppFrom) ∧
    (∀ e ext, e i.userText = .ok ext →
      (∀ kv ∈ ext, kv.1 = "phone" → goTrim kv.2 = "") →
      mget (extractFactsCore (some e) i).1 "phone" = normalizePhone i.whatsAppFrom) := by
  refine ⟨?_, ?_, ?_⟩
  · show mget (detFacts i) "phone" = normalizePhone i.whatsAppFrom
    exact mget_detFacts_phone i h hn
  · intro e msg he
    show mget (extractFactsCore (some e) i).1 "phone" = normalizePhone i.whatsAppFrom
    simp only [extractFactsCore, he]
    exact mget_detFacts_phone i h hn
  · intro e ext he hext
    simp only [extractFactsCore, he]
    rw [mget_applyOverlay_phone ext (detFacts i) hext]
    exact mget_detFacts_phone i h hn

/-- Witness for the amended C4 at a concrete WhatsApp turn whose extractor
returns an explicit null phone. -/
theorem c4_seeded_phone_amended_witness :
    mget (extractFactsCore none c4Inbound).1 "phone" = "+15551234567" ∧
    mget (extractFactsCore (some (fun _ => .ok [("phone", " "), ("name", "Ana")]))
        c4Inbound).1 "phone" = "+15551234567" := by
  have h := c4_seeded_phone_amended c4Inbound (by decide) (by decide)
  refine ⟨?_, ?_⟩
  · rw [h.1]; rfl
  · rw [h.2.2 (fun _ => .ok [("phone", " "), ("name", "Ana")]) [("phone", " "), ("name", "Ana")]
      rfl (by decide)]
    rfl

/-! ## Claim C2: the confirm/decline sub-dialogue -/

/-- With no pending switch recorded, `handlePendingSwitch` is a no-op. -/
theorem handlePendingSwitch_no_pending (st : Store) (session : UserSession)
    (user : AppUser) (i : Inbound)
    (h : mget session.metadata "pending_switch_to_user_id" = "") :
    handlePendingSwitch st session user i = ⟨"", "", session, st⟩ := by
  unfold handlePendingSwitch
  rw [h]
  simp

/-- A confirm token rebinds the session row to the pending target and clears
the pending metadata, letting the turn continue as the target. -/
theorem handlePendingSwitch_confirm (st : Store) (session : UserSession)
    (user : AppUser) (i : Inbound) (target : String)
    (htar : mget session.metadata "pending_switch_to_user_id" = target)
    (hne : target ≠ "")
    (hc : goTrim (goLower i.userText) = "switch" ∨ goTrim (goLower i.userText) = "yes" ∨
      goTrim (goLower i.userText) = "confirm" ∨
      goTrim (goLower i.userText) = "use that account") :
    handlePendingSwitch st session user i =
      ⟨"", target, { session with metadata := clearPending session.metadata },
        (st.patchUserSession i.sessionID (some target)
            (some (clearPending session.metadata))).insertEvent target
          "identity.switch_confirmed"⟩ := by
  unfold handlePendingSwitch
  rw [htar]
  have hb : (goTrim (goLower i.userText) == "switch" || goTrim (goLower i.userText) == "yes" ||
      goTrim (goLower i.userText) == "confirm" ||
      goTrim (goLower i.userText) == "use that account") = true := by
    rcases hc with h | h | h | h <;> simp [h]
  simp [hne, hb]

/-- A decline token clears the pending metadata without rebinding the
session, letting the turn continue as the original user. -/
theorem handlePendingSwitch_decline (st : Store) (session : UserSession)
    (user : AppUser) (i : Inbound) (target : String)
    (htar : mget session.metadata "pending_switch_to_user_id" = target)
    (hne : target ≠ "")
    (hd : goTrim (goLower i.userText) = "guest" ∨ goTrim (goLower i.userText) = "no" ∨
      goTrim (goLower i.userText) = "stay" ∨ goTrim (goLower i.userText) = "continue") :
    handlePendingSwitch st session user i =
      ⟨"", "", { session with metadata := clearPending session.metadata },
        (st.patchUserSession i.sessionID none
            (some (clearPending session.metadata))).insertEvent user.id
          "identity.switch_declined"⟩ := by
  unfold handlePendingSwitch
  rw [htar]
  have hbc : (goTrim (goLower i.userText) == "switch" || goTrim (goLower i.userText) == "yes" ||
      goTrim (goLower i.userText) == "confirm" ||
      goTrim (goLower i.userText) == "use that account") = false := by
    rcases hd with h | h | h | h <;> simp [h]
  have hbd : (goTrim (goLower i.userText) == "guest" || goTrim (goLower i.userText) == "no" ||
      goTrim (goLower i.userText) == "stay" ||
      goTrim (goLower i.userText) == "continue") = true := by
    rcases hd with h | h | h | h <;> simp [h]
  simp [hne, hbc, hbd]

/-- Any other reply re-emits the conflict prompt and changes nothing. -/
theorem handlePendingSwitch_other (st : Store) (session : UserSession)
    (user : AppUser) (i : Inbound) (target : String)
    (htar : mget session.metadata "pending_switch_to_user_id" = target)
    (hne : target ≠ "")
    (hnc : ¬ (goTrim (goLower i.userText) = "switch" ∨ goTrim (goLower i.userText) = "yes" ∨
      goTrim (goLower i.userText) = "confirm" ∨
      goTrim (goLower i.userText) = "use that account"))
    (hnd : ¬ (goTrim (goLower i.userText) = "guest" ∨ goTrim (goLower i.userText) = "no" ∨
      goTrim (goLower i.userText) = "stay" ∨ goTrim (goLower i.userText) = "continue")) :
    handlePendingSwitch st session user i = ⟨identityConflictReply, "", session, st⟩ := by
  unfold handlePendingSwitch
  rw [htar]
  simp only [not_or] at hnc hnd
  obtain ⟨h1, h2, h3, h4⟩ := hnc
  obtain ⟨h5, h6, h7, h8⟩ := hnd
  simp [hne, h1, h2, h3, h4, h5, h6, h7, h8]

/-- The bootstrap on a known session bound to a known user. -/
theorem resolveBoot_found (st : Store) (i : Inbound) (session : UserSession)
    (user : AppUser) (hsess : st.getUserSession i.sessionID = some session)
    (huser : st.getAppUserByID session.userId = some user) :
    resolveBoot st i = .ok (user, session, st) := by
  unfold resolveBoot
  rw [hsess]
  show (match st.getAppUserByID session.userId with
    | some user => Except.ok (user, session, st)
    | none => Except.error "app_user not found") = Except.ok (user, session, st)
  rw [huser]

/-- `resolveIdentity` on a known session is the post-bootstrap logic. -/
theorem resolveIdentity_of_found (st : Store) (i : Inbound) (session : UserSession)
    (user : AppUser) (hsess : st.getUserSession i.sessionID = some session)
    (huser : st.getAppUserByID session.userId = some user) :
    resolveIdentity st i = resolveAfterBoot st i user session := by
  unfold resolveIdentity
  rw [resolveBoot_found st i session user hsess huser]

/-- An interrupt raised by the pending-switch check preempts the rest of
`resolveIdentity`. -/
theorem resolveIdentity_interrupted (st : Store) (i : Inbound) (session : UserSession)
    (user : AppUser) (out : PendingOutcome)
    (hsess : st.getUserSession i.sessionID = some session)
    (huser : st.getAppUserByID session.userId = some user)
    (hps : handlePendingSwitch st session user i = out)
    (hr : out.interrupt ≠ "") :
    resolveIdentity st i = .ok (user, out.interrupt, out.store) := by
  rw [resolveIdentity_of_found st i session user hsess huser]
  unfold resolveAfterBoot
  rw [hps, if_pos hr]

/-- C2: for a session whose metadata carries a pending switch target, a
confirm token (`switch`/`yes`/`confirm`/`use that account`, trimmed and
lowercased) rebinds the session to the target and clears the pending-switch
metadata; a decline token (`guest`/`no`/`stay`/`continue`) keeps the session
bound to the original user and clears the metadata; any other text returns
the identical fixed conflict prompt as the interrupt of the turn and leaves
the store — pending metadata included — unchanged. -/
theorem c2_pending_switch_dialogue (st : Store) (i : Inbound) (session : UserSession)
    (user : AppUser) (target : String)
    (hsess : st.getUserSession i.sessionID = some session)
    (htar : mget session.metadata "pending_switch_to_user_id" = target)
    (hne : target ≠ "")
    (huser : st.getAppUserByID session.userId = some user) :
    ((goTrim (goLower i.userText) = "switch" ∨ goTrim (goLower i.userText) = "yes" ∨
        goTrim (goLower i.userText) = "confirm" ∨
        goTrim (goLower i.userText) = "use that account") →
      (handlePendingSwitch st session user i).interrupt = "" ∧
      (handlePendingSwitch st session user i).switchedTo = target ∧
      (((handlePendingSwitch st session user i).store.getUserSession i.sessionID).map
        (fun s => s.userId)) = some target ∧
      (((handlePendingSwitch st session user i).store.getUserSession i.sessionID).map
        (fun s => mget s.metadata "pending_switch_to_user_id")) = some "") ∧
    ((goTrim (goLower i.userText) = "guest" ∨ goTrim (goLower i.userText) = "no" ∨
        goTrim (goLower i.userText) = "stay" ∨ goTrim (goLower i.userText) = "continue") →
      (handlePendingSwitch st session user i).interrupt = "" ∧
      (handlePendingSwitch st session user i).switchedTo = "" ∧
      (((handlePendingSwitch st session user i).store.getUserSession i.sessionID).map
        (fun s => s.userId)) = some session.userId ∧
      (((handlePendingSwitch st session user i).store.getUserSession i.sessionID).map
        (fun s => mget s.metadata "pending_switch_to_user_id")) = some "") ∧
    (¬ (goTrim (goLower i.userText) = "switch" ∨ goTrim (goLower i.userText) = "yes" ∨
        goTrim (goLower i.userText) = "confirm" ∨
        goTrim (goLower i.userText) = "use that account") →
      ¬ (goTrim (goLower i.userText) = "guest" ∨ goTrim (goLower i.userText) = "no" ∨
        goTrim (goLower i.userText) = "stay" ∨ goTrim (goLower i.userText) = "continue") →
      handlePendingSwitch st session user i = ⟨identityConflictReply, "", session, st⟩ ∧
      resolveIdentity st i = .ok (user, identityConflictReply, st)) := by
  refine ⟨fun hc => ?_, fun hd => ?_, fun hnc hnd => ?_⟩
  · rw [handlePendingSwitch_confirm st session user i target htar hne hc]
    refine ⟨rfl, rfl, ?_, ?_⟩
    · rw [getUserSession_insertEvent, getUserSession_patchUserSession, hsess]
      rfl
    · rw [getUserSession_insertEvent, getUserSession_patchUserSession, hsess]
      simp [clearPending_target]
  · rw [handlePendingSwitch_decline st session user i target htar hne hd]
    refine ⟨rfl, rfl, ?_, ?_⟩
    · rw [getUserSession_insertEvent, getUserSession_patchUserSession, hsess]
      rfl
    · rw [getUserSession_insertEvent, getUserSession_patchUserSession, hsess]
      simp [clearPending_target]
  · have hps := handlePendingSwitch_other st session user i target htar hne hnc hnd
    exact ⟨hps, resolveIdentity_interrupted st i session user _ hsess huser hps
      (by show identityConflictReply ≠ ""; decide)⟩

/-- The concrete store of the C2 witness: one session pending a switch to
`u2`. -/
def c2Store : Store :=
  { sessions := [⟨"s1", "u1", [("pending_switch_to_user_id", "u2")]⟩],
    users := [{ id := "u1" }, { id := "u2" }] }

/-- Witness for C2: the three reply kinds on one concrete pending session. -/
theorem c2_pending_switch_dialogue_witness :
    (handlePendingSwitch c2Store
        ⟨"s1", "u1", [("pending_switch_to_user_id", "u2")]⟩ { id := "u1" }
        { sessionID := "s1", userText := " SWITCH " }).switchedTo = "u2" ∧
    (handlePendingSwitch c2Store
        ⟨"s1", "u1", [("pending_switch_to_user_id", "u2")]⟩ { id := "u1" }
        { sessionID := "s1", userText := "guest" }).switchedTo = "" ∧
    resolveIdentity c2Store { sessionID := "s1", userText := "what do you mean" } =
      .ok ({ id := "u1" }, identityConflictReply, c2Store) := by
  refine ⟨?_, ?_, ?_⟩
  · exact (c2_pending_switch_dialogue c2Store { sessionID := "s1", userText := " SWITCH " }
      ⟨"s1", "u1", [("pending_switch_to_user_id", "u2")]⟩ { id := "u1" } "u2"
      rfl rfl (by decide) rfl).1 (Or.inl (by decide)) |>.2.1
  · exact (c2_pending_switch_dialogue c2Store { sessionID := "s1", userText := "guest" }
      ⟨"s1", "u1", [("pending_switch_to_user_id", "u2")]⟩ { id := "u1" } "u2"
      rfl rfl (by decide) rfl).2.1 (Or.inl (by decide)) |>.2.1
  · exact (c2_pending_switch_dialogue c2Store { sessionID := "s1", userText := "what do you mean" }
      ⟨"s1", "u1", [("pending_switch_to_user_id", "u2")]⟩ { id := "u1" } "u2"
      rfl rfl (by decide) rfl).2.2 (by decide) (by decide) |>.2

/-! ## Claim C1: the conflict interrupt -/

/-- With no pending switch, `resolveIdentity`'s post-bootstrap logic is the
candidate-matching and patching stage. -/
theorem resolveAfterBoot_no_pending (st : Store) (i : Inbound) (user : AppUser)
    (session : UserSession)
    (h : mget session.metadata "pending_switch_to_user_id" = "") :
    resolveAfterBoot st i user session =
      .ok (resolveCandidatesAndPatch st i user session) := by
  unfold resolveAfterBoot
  rw [handlePendingSwitch_no_pending st session user i h]
  rfl

/-- The candidate loop raises the conflict at the first candidate owned by a
different user, given that all earlier candidates were owner-matching
no-ops; it writes the pending-switch metadata and the conflict event and
examines no further candidate. -/
theorem processCandidates_conflict_at (user : AppUser) (session : UserSession)
    (sid : String) (cs : List IdentityCandidate) :
    ∀ (st : Store) (k : Nat) (c : IdentityCandidate) (row : IdentityKeyRow),
    cs.get? k = some c →
    (∀ j, j < k → ∀ cj, cs.get? j = some cj →
      ∃ rj, st.lookupIdentityKey cj.keyType cj.keyValue = some rj ∧ rj.userId = user.id) →
    st.lookupIdentityKey c.keyType c.keyValue = some row →
    row.userId ≠ "" → row.userId ≠ user.id →
    processCandidates user session sid st cs =
      ((st.patchUserSession sid none
          (some (conflictMeta session.metadata row.userId c))).insertEvent user.id
        "identity.conflict", some identityConflictReply) := by
  induction cs with
  | nil =>
    intro st k c row hk
    simp [List.get?] at hk
  | cons c0 rest ih =>
    intro st k c row hk hearlier hlook hne1 hne2
    cases k with
    | zero =>
      injection hk with hk
      subst hk
      unfold processCandidates
      simp only [hlook]
      rw [if_pos ⟨hne1, hne2⟩]
    | succ k =>
      obtain ⟨r0, hr0, hr0u⟩ := hearlier 0 (Nat.succ_pos k) c0 rfl
      unfold processCandidates
      simp only [hr0]
      have hno : ¬ (r0.userId ≠ "" ∧ r0.userId ≠ user.id) := by
        rw [hr0u]
        rintro ⟨_, hbad⟩
        exact hbad rfl
      rw [if_neg hno]
      exact ih st k c row hk
        (fun j hj cj hcj => hearlier (j + 1) (Nat.succ_lt_succ hj) cj hcj) hlook hne1 hne2

/-- `find?` over an appended list yields the left find when it succeeds. -/
theorem find_append_some {α : Type} (p : α → Bool) (l1 l2 : List α) (a : α)
    (h : l1.find? p = some a) : (l1 ++ l2).find? p = some a := by
  induction l1 with
  | nil => exact absurd h (by simp)
  | cons x t ih =>
    rw [List.cons_append]
    cases hx : p x with
    | true =>
      rw [List.find?_cons_of_pos t hx] at h
      rw [List.find?_cons_of_pos (t ++ l2) hx]
      exact h
    | false =>
      rw [List.find?_cons_of_neg t (by simp [hx])] at h
      rw [List.find?_cons_of_neg (t ++ l2) (by simp [hx])]
      exact ih h

/-- `find?` over an appended list falls through to the right list when the
left find fails. -/
theorem find_append_none {α : Type} (p : α → Bool) (l1 l2 : List α)
    (h : l1.find? p = none) : (l1 ++ l2).find? p = l2.find? p := by
  induction l1 with
  | nil => rfl
  | cons x t ih =>
    rw [List.cons_append]
    cases hx : p x with
    | true =>
      rw [List.find?_cons_of_pos t hx] at h
      exact Option.noConfusion h
    | false =>
      rw [List.find?_cons_of_neg t (by simp [hx])] at h
      rw [List.find?_cons_of_neg (t ++ l2) (by simp [hx])]
      exact ih h

theorem lookup_insertEvent (st : Store) (u e t v : String) :
    (st.insertEvent u e).lookupIdentityKey t v = st.lookupIdentityKey t v := rfl

/-- Inserting an identity key preserves every lookup that already succeeds
(`ignore-duplicates`: the insert only appends, and only when absent). -/
theorem lookup_insertIdentityKey_stable (st : Store) (uid tI vI t v : String)
    (b : Bool) (row : IdentityKeyRow)
    (h : st.lookupIdentityKey t v = some row) :
    (st.insertIdentityKey uid tI vI b).lookupIdentityKey t v = some row := by
  unfold Store.insertIdentityKey
  split
  · exact h
  · have h2 : List.find? (fun r => r.keyType == t && r.keyValue == v)
        (st.identityKeys ++ [⟨uid, tI, vI, b⟩]) = some row :=
      find_append_some _ st.identityKeys [⟨uid, tI, vI, b⟩] row h
    exact h2

/-- A fresh identity key is appended when its (type, value) pair is absent. -/
theorem insertIdentityKey_of_absent (st : Store) (uid t v : String) (b : Bool)
    (hl : st.lookupIdentityKey t v = none) :
    (st.insertIdentityKey uid t v b).identityKeys =
      st.identityKeys ++ [⟨uid, t, v, b⟩] := by
  unfold Store.insertIdentityKey
  have hno : ¬ (st.identityKeys.any (fun r => r.keyType == t && r.keyValue == v) = true) := by
    rw [List.any_eq_true]
    rintro ⟨x, hx, hpx⟩
    exact (List.find?_eq_none.mp hl x hx) hpx
  rw [if_neg hno]

/-- At most two identity candidates are built: an email and then a phone. -/
theorem buildIdentityCandidates_length (facts : List (String × String)) :
    (buildIdentityCandidates facts).length ≤ 2 := by
  unfold buildIdentityCandidates
  split <;> split <;> simp

/-- The candidate loop raises the conflict at the first candidate whose
existing key row is owned by a different user, provided every earlier
candidate was non-conflicting (its key absent, orphaned, or owned by the
current user).  An earlier absent candidate inserts its own key first, so
the store `st1` the loop carries into the conflict keeps the users, the
sessions and the conflicting pair's key rows of `st`. -/
theorem processCandidates_first_conflict (user : AppUser) (session : UserSession)
    (sid : String) (cs : List IdentityCandidate) (st : Store) (k : Nat)
    (c : IdentityCandidate) (row : IdentityKeyRow)
    (hk1 : k ≤ 1) (hk : cs.get? k = some c)
    (hearlier : ∀ j, j < k → ∀ cj, cs.get? j = some cj →
      ∀ rj, st.lookupIdentityKey cj.keyType cj.keyValue = some rj →
        rj.userId = "" ∨ rj.userId = user.id)
    (hlook : st.lookupIdentityKey c.keyType c.keyValue = some row)
    (hne1 : row.userId ≠ "") (hne2 : row.userId ≠ user.id) :
    ∃ st1 : Store,
      processCandidates user session sid st cs =
        ((st1.patchUserSession sid none
            (some (conflictMeta session.metadata row.userId c))).insertEvent user.id
          "identity.conflict", some identityConflictReply) ∧
      st1.users = st.users ∧ st1.sessions = st.sessions ∧
      st1.identityKeys.filter
          (fun r2 => r2.keyType == c.keyType && r2.keyValue == c.keyValue) =
        st.identityKeys.filter
          (fun r2 => r2.keyType == c.keyType && r2.keyValue == c.keyValue) := by
  interval_cases k
  · exact ⟨st, processCandidates_conflict_at user session sid cs st 0 c row hk
      (fun j hj => absurd hj (Nat.not_lt_zero j)) hlook hne1 hne2, rfl, rfl, rfl⟩
  · cases cs with
    | nil => exact absurd hk (by simp)
    | cons c0 rest0 =>
      cases rest0 with
      | nil => exact absurd hk (by simp)
      | cons c1 rest =>
        have hc1 : c1 = c := by simpa using hk
        subst hc1
        have he0 := hearlier 0 Nat.one_pos c0 rfl
        cases hl0 : st.lookupIdentityKey c0.keyType c0.keyValue with
        | some r0 =>
          have hno : ¬ (r0.userId ≠ "" ∧ r0.userId ≠ user.id) := by
            rcases he0 r0 hl0 with h0 | h0
            · exact fun hcon => hcon.1 h0
            · exact fun hcon => hcon.2 h0
          refine ⟨st, ?_, rfl, rfl, rfl⟩
          unfold processCandidates
          simp only [hl0]
          rw [if_neg hno]
          exact processCandidates_conflict_at user session sid (c1 :: rest) st 0 c1 row rfl
            (fun j hj => absurd hj (Nat.not_lt_zero j)) hlook hne1 hne2
        | none =>
          have hd : (c0.keyType == c1.keyType && c0.keyValue == c1.keyValue) = false := by
            by_contra hx
            rw [Bool.not_eq_false, Bool.and_eq_true, beq_iff_eq, beq_iff_eq] at hx
            rw [hx.1, hx.2, hlook] at hl0
            exact Option.noConfusion hl0
          refine ⟨(st.insertIdentityKey user.id c0.keyType c0.keyValue
              false).insertEvent user.id "identity.key_added", ?_, ?_, ?_, ?_⟩
          · unfold processCandidates
            simp only [hl0]
            refine processCandidates_conflict_at user session sid (c1 :: rest) _ 0 c1 row rfl
              (fun j hj => absurd hj (Nat.not_lt_zero j)) ?_ hne1 hne2
            rw [lookup_insertEvent]
            exact lookup_insertIdentityKey_stable st user.id c0.keyType c0.keyValue
              c1.keyType c1.keyValue false row hlook
          · rw [users_insertEvent, users_insertIdentityKey]
          · rw [sessions_insertEvent, sessions_insertIdentityKey]
          · rw [identityKeys_insertEvent,
              insertIdentityKey_of_absent st user.id c0.keyType c0.keyValue false hl0,
              List.filter_append]
            simp [hd]

/-- The whole candidate stage on a first conflicting candidate: the turn
returns the current user unchanged with the fixed conflict prompt, the final
store keeps the user rows of `st`, its session row carries the target user
id and the triggering key under the pending-switch metadata, and the key
rows for the conflicting pair are exactly those of `st` (no IdentityKey is
inserted for that key). -/
theorem resolveCandidatesAndPatch_conflict (st : Store) (i : Inbound)
    (user : AppUser) (session srow : UserSession) (k : Nat)
    (c : IdentityCandidate) (row : IdentityKeyRow)
    (hsrow : st.getUserSession i.sessionID = some srow)
    (hk : (buildIdentityCandidates (extractFactsCore none i).1).get? k = some c)
    (hearlier : ∀ j, j < k → ∀ cj,
      (buildIdentityCandidates (extractFactsCore none i).1).get? j = some cj →
      ∀ rj, st.lookupIdentityKey cj.keyType cj.keyValue = some rj →
        rj.userId = "" ∨ rj.userId = user.id)
    (hlook : st.lookupIdentityKey c.keyType c.keyValue = some row)
    (hne1 : row.userId ≠ "") (hne2 : row.userId ≠ user.id) :
    ∃ st1 : Store,
      resolveCandidatesAndPatch st i user session =
        (user, identityConflictReply,
          (st1.patchUserSession i.sessionID none
              (some (conflictMeta session.metadata row.userId c))).insertEvent user.id
            "identity.conflict") ∧
      ((st1.patchUserSession i.sessionID none
          (some (conflictMeta session.metadata row.userId c))).insertEvent user.id
        "identity.conflict").users = st.users ∧
      ((((st1.patchUserSession i.sessionID none
            (some (conflictMeta session.metadata row.userId c))).insertEvent user.id
          "identity.conflict").getUserSession i.sessionID).map
        (fun s => (mget s.metadata "pending_switch_to_user_id",
          mget s.metadata "pending_switch_key_type",
          mget s.metadata "pending_switch_key_value"))) =
        some (row.userId, c.keyType, c.keyValue) ∧
      (((st1.patchUserSession i.sessionID none
            (some (conflictMeta session.metadata row.userId c))).insertEvent user.id
          "identity.conflict").identityKeys).filter
          (fun r2 => r2.keyType == c.keyType && r2.keyValue == c.keyValue) =
        st.identityKeys.filter
          (fun r2 => r2.keyType == c.keyType && r2.keyValue == c.keyValue) := by
  have hk1 : k ≤ 1 := by
    by_contra hgt
    have hlen := buildIdentityCandidates_length (extractFactsCore none i).1
    rw [List.get?_eq_none.mpr (by omega)] at hk
    exact Option.noConfusion hk
  obtain ⟨st1, hpc, hu, hs, hf⟩ := processCandidates_first_conflict user session
    i.sessionID (buildIdentityCandidates (extractFactsCore none i).1) st k c row
    hk1 hk hearlier hlook hne1 hne2
  refine ⟨st1, ?_, ?_, ?_, ?_⟩
  · simp only [resolveCandidatesAndPatch]
    rw [hpc]
  · rw [users_insertEvent, users_patchUserSession, hu]
  · rw [getUserSession_insertEvent, getUserSession_patchUserSession]
    have hsrow1 : st1.getUserSession i.sessionID = some srow := by
      unfold Store.getUserSession
      rw [hs]
      exact hsrow
    rw [hsrow1]
    simp [conflictMeta_target, conflictMeta_keyType, conflictMeta_keyValue]
  · rw [identityKeys_insertEvent, identityKeys_patchUserSession, hf]

/-- A confirmed pending switch hands the rest of the turn to the candidate
stage, run as the target user on the patched store. -/
theorem resolveAfterBoot_switched (st stP : Store) (i : Inbound) (user u2 : AppUser)
    (session sessC : UserSession) (target : String)
    (hps : handlePendingSwitch st session user i = ⟨"", target, sessC, stP⟩)
    (htne : target ≠ "")
    (hu2 : stP.getAppUserByID target = some u2) :
    resolveAfterBoot st i user session =
      .ok (resolveCandidatesAndPatch stP i u2 { sessC with userId := target }) := by
  unfold resolveAfterBoot
  rw [hps]
  rw [if_neg (show ¬ (PendingOutcome.mk "" target sessC stP).interrupt ≠ "" from
    fun h => h rfl)]
  rw [if_pos (show (PendingOutcome.mk "" target sessC stP).switchedTo ≠ "" from htne)]
  simp only [hu2]

/-- A confirmed pending switch whose target user row is missing fails the
turn with the missing-row error. -/
theorem resolveAfterBoot_switched_missing (st stP : Store) (i : Inbound)
    (user : AppUser) (session sessC : UserSession) (target : String)
    (hps : handlePendingSwitch st session user i = ⟨"", target, sessC, stP⟩)
    (htne : target ≠ "")
    (hu2 : stP.getAppUserByID target = none) :
    resolveAfterBoot st i user session = .error "app_user not found" := by
  unfold resolveAfterBoot
  rw [hps]
  rw [if_neg (show ¬ (PendingOutcome.mk "" target sessC stP).interrupt ≠ "" from
    fun h => h rfl)]
  rw [if_pos (show (PendingOutcome.mk "" target sessC stP).switchedTo ≠ "" from htne)]
  simp only [hu2]

/-- A pending-switch outcome with no interrupt and no switch (a decline, or
no pending metadata at all) hands the rest of the turn to the candidate
stage, run as the original user on the outcome's store and session. -/
theorem resolveAfterBoot_declined (st stP : Store) (i : Inbound) (user : AppUser)
    (session sessC : UserSession)
    (hps : handlePendingSwitch st session user i = ⟨"", "", sessC, stP⟩) :
    resolveAfterBoot st i user session =
      .ok (resolveCandidatesAndPatch stP i user sessC) := by
  unfold resolveAfterBoot
  rw [hps]
  rfl

/-- An interrupt raised by the pending-switch check preempts the candidate
stage. -/
theorem resolveAfterBoot_of_interrupt (st : Store) (i : Inbound) (user : AppUser)
    (session : UserSession) (out : PendingOutcome)
    (hps : handlePendingSwitch st session user i = out) (hr : out.interrupt ≠ "") :
    resolveAfterBoot st i user session = .ok (user, out.interrupt, out.store) := by
  unfold resolveAfterBoot
  rw [hps, if_pos hr]

/-- First contact: with no session row, the bootstrap creates an anonymous
user and an empty-metadata session, and the turn proceeds directly to the
candidate stage (no pending switch can exist on a fresh session). -/
theorem resolveIdentity_fresh_start (st : Store) (i : Inbound) (u0 : AppUser)
    (stA : Store)
    (hnone : st.getUserSession i.sessionID = none)
    (hca : st.createAnonymousUser i.sessionID = (u0, stA)) :
    resolveIdentity st i =
      .ok (resolveCandidatesAndPatch (stA.upsertUserSession i.sessionID u0.id [])
        i u0 ⟨i.sessionID, u0.id, []⟩) := by
  unfold resolveIdentity resolveBoot
  simp only [hnone, hca]
  exact resolveAfterBoot_no_pending _ i u0 _ rfl

/-- C1: whenever the candidate stage of a turn meets an extracted contact
key (normalized email or phone, in that candidate order) already owned by a
different user — every earlier candidate being non-conflicting, including a
fresh key the same turn just inserted — it returns exactly the fixed
conflict prompt as an interrupt, stores the target user id and the
triggering key in the session's pending-switch metadata, inserts no
IdentityKey for that key (its key rows are unchanged), applies no AppUser
patch that turn, and processes no further candidates; and every turn shape
reaches that candidate stage: a known session with no pending switch runs
it directly, first contact runs it on the fresh anonymous session, and a
confirmed or declined pending switch runs it on the patched store, while
any other reply to a pending switch short-circuits with the same fixed
prompt and no store change at all. -/
theorem c1_conflict_interrupt :
    (∀ (st : Store) (i : Inbound) (user : AppUser) (session srow : UserSession)
      (k : Nat) (c : IdentityCandidate) (row : IdentityKeyRow),
      st.getUserSession i.sessionID = some srow →
      (buildIdentityCandidates (extractFactsCore none i).1).get? k = some c →
      (∀ j, j < k → ∀ cj,
        (buildIdentityCandidates (extractFactsCore none i).1).get? j = some cj →
        ∀ rj, st.lookupIdentityKey cj.keyType cj.keyValue = some rj →
          rj.userId = "" ∨ rj.userId = user.id) →
      st.lookupIdentityKey c.keyType c.keyValue = some row →
      row.userId ≠ "" → row.userId ≠ user.id →
      ∃ st1 : Store,
        resolveCandidatesAndPatch st i user session =
          (user, identityConflictReply,
            (st1.patchUserSession i.sessionID none
                (some (conflictMeta session.metadata row.userId c))).insertEvent user.id
              "identity.conflict") ∧
        ((st1.patchUserSession i.sessionID none
            (some (conflictMeta session.metadata row.userId c))).insertEvent user.id
          "identity.conflict").users = st.users ∧
        ((((st1.patchUserSession i.sessionID none
              (some (conflictMeta session.metadata row.userId c))).insertEvent user.id
            "identity.conflict").getUserSession i.sessionID).map
          (fun s => (mget s.metadata "pending_switch_to_user_id",
            mget s.metadata "pending_switch_key_type",
            mget s.metadata "pending_switch_key_value"))) =
          some (row.userId, c.keyType, c.keyValue) ∧
        (((st1.patchUserSession i.sessionID none
              (some (conflictMeta session.metadata row.userId c))).insertEvent user.id
            "identity.conflict").identityKeys).filter
            (fun r2 => r2.keyType == c.keyType && r2.keyValue == c.keyValue) =
          st.identityKeys.filter
            (fun r2 => r2.keyType == c.keyType && r2.keyValue == c.keyValue)) ∧
    (∀ (st : Store) (i : Inbound) (session : UserSession) (user : AppUser),
      st.getUserSession i.sessionID = some session →
      st.getAppUserByID session.userId = some user →
      mget session.metadata "pending_switch_to_user_id" = "" →
      resolveIdentity st i = .ok (resolveCandidatesAndPatch st i user session)) ∧
    (∀ (st : Store) (i : Inbound) (u0 : AppUser) (stA : Store),
      st.getUserSession i.sessionID = none →
      st.createAnonymousUser i.sessionID = (u0, stA) →
      resolveIdentity st i =
        .ok (resolveCandidatesAndPatch (stA.upsertUserSession i.sessionID u0.id [])
          i u0 ⟨i.sessionID, u0.id, []⟩)) ∧
    (∀ (st : Store) (i : Inbound) (session : UserSession) (user u2 : AppUser)
      (target : String),
      st.getUserSession i.sessionID = some session →
      st.getAppUserByID session.userId = some user →
      mget session.metadata "pending_switch_to_user_id" = target → target ≠ "" →
      (goTrim (goLower i.userText) = "switch" ∨ goTrim (goLower i.userText) = "yes" ∨
        goTrim (goLower i.userText) = "confirm" ∨
        goTrim (goLower i.userText) = "use that account") →
      ((st.patchUserSession i.sessionID (some target)
          (some (clearPending session.metadata))).insertEvent target
        "identity.switch_confirmed").getAppUserByID target = some u2 →
      resolveIdentity st i =
        .ok (resolveCandidatesAndPatch
          ((st.patchUserSession i.sessionID (some target)
              (some (clearPending session.metadata))).insertEvent target
            "identity.switch_confirmed") i u2
          ⟨session.sessionId, target, clearPending session.metadata⟩)) ∧
    (∀ (st : Store) (i : Inbound) (session : UserSession) (user : AppUser)
      (target : String),
      st.getUserSession i.sessionID = some session →
      st.getAppUserByID session.userId = some user →
      mget session.metadata "pending_switch_to_user_id" = target → target ≠ "" →
      (goTrim (goLower i.userText) = "guest" ∨ goTrim (goLower i.userText) = "no" ∨
        goTrim (goLower i.userText) = "stay" ∨ goTrim (goLower i.userText) = "continue") →
      resolveIdentity st i =
        .ok (resolveCandidatesAndPatch
          ((st.patchUserSession i.sessionID none
              (some (clearPending session.metadata))).insertEvent user.id
            "identity.switch_declined") i user
          ⟨session.sessionId, session.userId, clearPending session.metadata⟩)) := by
  refine ⟨?_, ?_, ?_, ?_, ?_⟩
  · intro st i user session srow k c row hsrow hk hearlier hlook hne1 hne2
    exact resolveCandidatesAndPatch_conflict st i user session srow k c row hsrow hk
      hearlier hlook hne1 hne2
  · intro st i session user hsess huser hpend
    rw [resolveIdentity_of_found st i session user hsess huser,
      resolveAfterBoot_no_pending st i user session hpend]
  · intro st i u0 stA hnone hca
    exact resolveIdentity_fresh_start st i u0 stA hnone hca
  · intro st i session user u2 target hsess huser htar htne hc hu2
    rw [resolveIdentity_of_found st i session user hsess huser]
    exact resolveAfterBoot_switched st _ i user u2 session _ target
      (handlePendingSwitch_confirm st session user i target htar htne hc) htne hu2
  · intro st i session user target hsess huser htar htne hd
    rw [resolveIdentity_of_found st i session user hsess huser]
    exact resolveAfterBoot_declined st _ i user session _
      (handlePendingSwitch_decline st session user i target htar htne hd)

/-- The concrete store of the C1 witness: the phone key `5551234567` already
belongs to `u2` while the session is bound to `u1`, and the email the turn
extracts is fresh. -/
def c1Store : Store :=
  { sessions := [⟨"s1", "u1", []⟩],
    users := [{ id := "u1", anonymousId := "s1" }, { id := "u2", phone := "5551234567" }],
    identityKeys := [⟨"u2", "phone", "5551234567", false⟩] }

/-- The inbound message of the C1 witness: a fresh email (whose key the turn
inserts first) followed by a phone owned by a different user. -/
def c1Inbound : Inbound :=
  { channel := "web", sessionID := "s1",
    userText := "my email is a@B.com phone 5551234567" }

/-- Witness for C1: on the concrete turn whose first candidate (the fresh
email) is inserted and whose second candidate (the phone) conflicts, the
reply is the conflict prompt, the user rows are unchanged, no key row for
the phone pair is added, and the pending-switch metadata names `u2` and the
phone key. -/
theorem c1_conflict_interrupt_witness :
    (match resolveIdentity c1Store c1Inbound with
     | .ok (u, r, st') =>
        u = { id := "u1", anonymousId := "s1" } ∧ r = identityConflictReply ∧
        st'.users = c1Store.users ∧
        st'.identityKeys.filter
            (fun r2 => r2.keyType == "phone" && r2.keyValue == "5551234567") =
          c1Store.identityKeys.filter
            (fun r2 => r2.keyType == "phone" && r2.keyValue == "5551234567") ∧
        ((st'.getUserSession "s1").map
          (fun s => (mget s.metadata "pending_switch_to_user_id",
            mget s.metadata "pending_switch_key_type",
            mget s.metadata "pending_switch_key_value"))) =
          some ("u2", "phone", "5551234567")
     | .error _ => False) := by
  have hpath := c1_conflict_interrupt.2.1 c1Store c1Inbound ⟨"s1", "u1", []⟩
    { id := "u1", anonymousId := "s1" } rfl rfl rfl
  have hcore := c1_conflict_interrupt.1 c1Store c1Inbound
    { id := "u1", anonymousId := "s1" } ⟨"s1", "u1", []⟩ ⟨"s1", "u1", []⟩ 1
    ⟨"phone", "5551234567"⟩ ⟨"u2", "phone", "5551234567", false⟩ rfl (by decide)
    (by
      intro j hj cj hcj rj hrj
      interval_cases j
      rw [show (buildIdentityCandidates (extractFactsCore none c1Inbound).1).get? 0 =
          some ⟨"email", "a@b.com"⟩ from by decide] at hcj
      injection hcj with hcj
      subst hcj
      have hnone : c1Store.lookupIdentityKey
          (⟨"email", "a@b.com"⟩ : IdentityCandidate).keyType
          (⟨"email", "a@b.com"⟩ : IdentityCandidate).keyValue = none := rfl
      rw [hnone] at hrj
      exact Option.noConfusion hrj)
    rfl (by decide) (by decide)
  obtain ⟨st1, hres, husers, hmeta, hfilter⟩ := hcore
  rw [hpath, hres]
  exact ⟨rfl, rfl, husers, hfilter, hmeta⟩

/-! ## Claim C10: identity candidates come from the LLM-free extraction -/

theorem identityKeys_upsertUserSession (st : Store) (sid uid : String)
    (meta : List (String × String)) :
    (st.upsertUserSession sid uid meta).identityKeys = st.identityKeys := by
  unfold Store.upsertUserSession; split <;> rfl

theorem identityKeys_updateAppUser (st : Store) (u : String) (p : UserPatch) :
    (st.updateAppUser u p).identityKeys = st.identityKeys := rfl

/-- Every identity key present after the candidate loop was present before
or matches one of the processed candidates. -/
theorem processCandidates_keys (user : AppUser) (session : UserSession) (sid : String)
    (cs : List IdentityCandidate) :
    ∀ (st : Store) (row : IdentityKeyRow),
    row ∈ ((processCandidates user session sid st cs).1).identityKeys →
    row ∈ st.identityKeys ∨
      ∃ c ∈ cs, row.keyType = c.keyType ∧ row.keyValue = c.keyValue := by
  induction cs with
  | nil => intro st row h; exact Or.inl h
  | cons c0 rest ih =>
    intro st row h
    unfold processCandidates at h
    cases hl : st.lookupIdentityKey c0.keyType c0.keyValue with
    | some found =>
      simp only [hl] at h
      by_cases hc : found.userId ≠ "" ∧ found.userId ≠ user.id
      · rw [if_pos hc] at h
        exact Or.inl h
      · rw [if_neg hc] at h
        rcases ih st row h with hin | ⟨c, hcs, hrow⟩
        · exact Or.inl hin
        · exact Or.inr ⟨c, List.mem_cons_of_mem c0 hcs, hrow⟩
    | none =>
      simp only [hl] at h
      rcases ih _ row h with hin | ⟨c, hcs, hrow⟩
      · have heq : ((st.insertIdentityKey user.id c0.keyType c0.keyValue
            false).insertEvent user.id "identity.key_added").identityKeys =
            st.identityKeys ++ [⟨user.id, c0.keyType, c0.keyValue, false⟩] := by
          rw [identityKeys_insertEvent,
            insertIdentityKey_of_absent st user.id c0.keyType c0.keyValue false hl]
        rw [heq] at hin
        rcases List.mem_append.mp hin with hin | hin
        · exact Or.inl hin
        · rcases List.mem_singleton.mp hin with rfl
          exact Or.inr ⟨c0, List.mem_cons_self c0 rest, rfl, rfl⟩
      · exact Or.inr ⟨c, List.mem_cons_of_mem c0 hcs, hrow⟩

/-- A conflict raised by the candidate loop is the fixed conflict prompt and
its pending-switch key metadata names one of the processed candidates. -/
theorem processCandidates_conflict_meta (user : AppUser) (session : UserSession)
    (sid : String) (cs : List IdentityCandidate) :
    ∀ (st st' : Store) (r : String) (srow : UserSession),
    st.getUserSession sid = some srow →
    processCandidates user session sid st cs = (st', some r) →
    r = identityConflictReply ∧
      ∃ c ∈ cs, ((st'.getUserSession sid).map
        (fun s => (mget s.metadata "pending_switch_key_type",
          mget s.metadata "pending_switch_key_value"))) = some (c.keyType, c.keyValue) := by
  induction cs with
  | nil =>
    intro st st' r srow _ h
    unfold processCandidates at h
    exact absurd (congrArg Prod.snd h) (by simp)
  | cons c0 rest ih =>
    intro st st' r srow hsess h
    unfold processCandidates at h
    cases hl : st.lookupIdentityKey c0.keyType c0.keyValue with
    | some found =>
      simp only [hl] at h
      by_cases hc : found.userId ≠ "" ∧ found.userId ≠ user.id
      · rw [if_pos hc, Prod.mk.injEq] at h
        obtain ⟨hst, hr⟩ := h
        injection hr with hr
        refine ⟨hr.symm, c0, List.mem_cons_self c0 rest, ?_⟩
        rw [← hst, getUserSession_insertEvent, getUserSession_patchUserSession, hsess]
        simp [conflictMeta_keyType, conflictMeta_keyValue]
      · rw [if_neg hc] at h
        rcases ih st st' r srow hsess h with ⟨hr, c, hcs, hconc⟩
        exact ⟨hr, c, List.mem_cons_of_mem c0 hcs, hconc⟩
    | none =>
      simp only [hl] at h
      have hsess1 : ((st.insertIdentityKey user.id c0.keyType c0.keyValue
          false).insertEvent user.id "identity.key_added").getUserSession sid =
          some srow := by
        rw [getUserSession_insertEvent, getUserSession_insertIdentityKey]
        exact hsess
      rcases ih _ st' r srow hsess1 h with ⟨hr, c, hcs, hconc⟩
      exact ⟨hr, c, List.mem_cons_of_mem c0 hcs, hconc⟩

/-- The `merge-duplicates` upsert rewrites a matching session row in place,
so the session key still finds a row afterwards. -/
theorem find_upsert_aux (l : List UserSession) (sid uid : String)
    (meta : List (String × String)) (hl : l.any (fun s => s.sessionId == sid) = true) :
    ∃ srow, (l.map (fun s => if s.sessionId == sid then
        { s with userId := uid, metadata := meta } else s)).find?
      (fun s => s.sessionId == sid) = some srow := by
  induction l with
  | nil => simp at hl
  | cons s t ih =>
    by_cases hx : (s.sessionId == sid) = true
    · refine ⟨{ s with userId := uid, metadata := meta }, ?_⟩
      rw [List.map_cons, if_pos hx]
      exact List.find?_cons_of_pos _ hx
    · rw [List.any_cons, Bool.or_eq_true] at hl
      rcases hl with hl | hl
      · exact absurd hl hx
      · obtain ⟨srow, hsr⟩ := ih hl
        have hxf : (s.sessionId == sid) = false := by simpa using hx
        refine ⟨srow, ?_⟩
        rw [List.map_cons, if_neg hx]
        simp only [List.find?_cons, hxf]
        exact hsr

/-- `find?` over a list extended with one matching row finds it when the
original list had no match. -/
theorem find_append_sing (l : List UserSession) (sid : String) (row : UserSession)
    (hrow : (row.sessionId == sid) = true)
    (hl : l.find? (fun s => s.sessionId == sid) = none) :
    (l ++ [row]).find? (fun s => s.sessionId == sid) = some row := by
  rw [find_append_none _ l [row] hl]
  exact List.find?_cons_of_pos _ hrow

/-- After an upsert, a session row for the upserted key exists. -/
theorem getUserSession_upsertUserSession (st : Store) (sid uid : String)
    (meta : List (String × String)) :
    ∃ srow, (st.upsertUserSession sid uid meta).getUserSession sid = some srow := by
  unfold Store.upsertUserSession
  split
  · next hany =>
    obtain ⟨srow, hsr⟩ := find_upsert_aux st.sessions sid uid meta hany
    exact ⟨srow, hsr⟩
  · next hany =>
    have hnone : st.sessions.find? (fun s => s.sessionId == sid) = none := by
      cases hf : st.sessions.find? (fun s => s.sessionId == sid) with
      | none => rfl
      | some x =>
        exact absurd (List.any_eq_true.mpr
          ⟨x, List.mem_of_find?_eq_some hf, List.find?_some hf⟩) hany
    exact ⟨⟨sid, uid, meta⟩,
      find_append_sing st.sessions sid ⟨sid, uid, meta⟩ (by simp) hnone⟩

theorem identityKeys_createAnonymousUser (st : Store) (sid : String) :
    ((st.createAnonymousUser sid).2).identityKeys = st.identityKeys := by
  unfold Store.createAnonymousUser
  cases st.users.find? (fun u => u.anonymousId == sid) <;> rfl

/-- What the bootstrap guarantees on success: it never touches identity
keys, it leaves a session row for the inbound session key, and either it
returned the store unchanged (a known session) or the in-memory session is
fresh with empty metadata. -/
theorem resolveBoot_ok_info (st : Store) (i : Inbound) (u0 : AppUser)
    (s0 : UserSession) (st0 : Store) (h : resolveBoot st i = .ok (u0, s0, st0)) :
    st0.identityKeys = st.identityKeys ∧
    (∃ srow, st0.getUserSession i.sessionID = some srow) ∧
    (st0 = st ∨ s0.metadata = []) := by
  unfold resolveBoot at h
  cases hs : st.getUserSession i.sessionID with
  | none =>
    simp only [hs] at h
    rcases hca : st.createAnonymousUser i.sessionID with ⟨uA, stA⟩
    rw [hca] at h
    simp only [Except.ok.injEq, Prod.mk.injEq] at h
    obtain ⟨hu, hsess, hst⟩ := h
    refine ⟨?_, ?_, Or.inr ?_⟩
    · rw [← hst, identityKeys_upsertUserSession]
      have hk := identityKeys_createAnonymousUser st i.sessionID
      rw [hca] at hk
      exact hk
    · rw [← hst]
      exact getUserSession_upsertUserSession stA i.sessionID uA.id []
    · rw [← hsess]
  | some session =>
    simp only [hs] at h
    cases hu : st.getAppUserByID session.userId with
    | some uB =>
      simp only [hu, Except.ok.injEq, Prod.mk.injEq] at h
      obtain ⟨hu0, hs0, hst⟩ := h
      exact ⟨by rw [← hst], ⟨session, by rw [← hst]; exact hs⟩, Or.inl hst.symm⟩
    | none => simp [hu] at h

/-- Every key the candidate stage adds matches a deterministic candidate,
and a conflict interrupt it raises is the fixed prompt naming such a
candidate in the session's pending-switch metadata. -/
theorem resolveCandidatesAndPatch_regex_only (stM : Store) (i : Inbound)
    (user u' : AppUser) (session srow : UserSession) (r : String) (st' : Store)
    (hsrow : stM.getUserSession i.sessionID = some srow)
    (heq : resolveCandidatesAndPatch stM i user session = (u', r, st')) :
    (∀ row ∈ st'.identityKeys, row ∈ stM.identityKeys ∨
      ∃ c ∈ buildIdentityCandidates (extractFactsCore none i).1,
        row.keyType = c.keyType ∧ row.keyValue = c.keyValue) ∧
    (r ≠ "" → r = identityConflictReply ∧
      ∃ c ∈ buildIdentityCandidates (extractFactsCore none i).1,
        ((st'.getUserSession i.sessionID).map
          (fun s => (mget s.metadata "pending_switch_key_type",
            mget s.metadata "pending_switch_key_value"))) =
          some (c.keyType, c.keyValue)) := by
  simp only [resolveCandidatesAndPatch] at heq
  rcases hpc : processCandidates user session i.sessionID stM
      (buildIdentityCandidates (extractFactsCore none i).1) with ⟨stX, oX⟩
  rw [hpc] at heq
  cases oX with
  | some interrupt =>
    simp only [Prod.mk.injEq] at heq
    obtain ⟨hu, hr, hst⟩ := heq
    subst hu hr hst
    constructor
    · intro row hrow
      refine processCandidates_keys user session i.sessionID _ stM row ?_
      rw [hpc]
      exact hrow
    · intro _
      exact processCandidates_conflict_meta user session i.sessionID _ stM stX interrupt
        srow hsrow hpc
  | none =>
    rcases hbf : backfillUser user ((extractFactsCore none i).1) with ⟨u2, pe, pp, pn⟩
    rw [hbf] at heq
    rcases hds : deriveIdentityState u2 i.sessionID with ⟨tier, status, conf, primary⟩
    rw [hds] at heq
    simp only [Prod.mk.injEq] at heq
    obtain ⟨hu, hr, hst⟩ := heq
    constructor
    · intro row hrow
      rw [← hst, identityKeys_insertEvent, identityKeys_upsertUserSession,
        identityKeys_updateAppUser] at hrow
      refine processCandidates_keys user session i.sessionID _ stM row ?_
      rw [hpc]
      exact hrow
    · intro hne
      exact absurd hr.symm hne

/-- C10: identity resolution builds its candidate keys from a fact
extraction run with no language-model extractor attached (the fresh
`&Router{}` of identity.go line 55): on every resolved turn — first
contact, pending-switch confirm or decline, or a plain turn — every
IdentityKey row the turn adds matches a candidate of the deterministic
(regex and channel-phone) extraction, and any non-empty interrupt is the
fixed conflict prompt where either the turn changed nothing (the re-issued
prompt of a still-pending switch) or the session's pending-switch metadata
names such a candidate — so a contact value only the LLM extractor would
find can neither create an IdentityKey nor trigger a conflict. -/
theorem c10_candidates_regex_only (st : Store) (i : Inbound) (u' : AppUser)
    (r : String) (st' : Store)
    (hres : resolveIdentity st i = .ok (u', r, st')) :
    (∀ row ∈ st'.identityKeys, row ∈ st.identityKeys ∨
      ∃ c ∈ buildIdentityCandidates (extractFactsCore none i).1,
        row.keyType = c.keyType ∧ row.keyValue = c.keyValue) ∧
    (r ≠ "" → r = identityConflictReply ∧
      (st' = st ∨
        ∃ c ∈ buildIdentityCandidates (extractFactsCore none i).1,
          ((st'.getUserSession i.sessionID).map
            (fun s => (mget s.metadata "pending_switch_key_type",
              mget s.metadata "pending_switch_key_value"))) =
            some (c.keyType, c.keyValue))) := by
  unfold resolveIdentity at hres
  cases hb : resolveBoot st i with
  | error e => simp [hb] at hres
  | ok trip =>
    obtain ⟨u0, s0, st0⟩ := trip
    simp only [hb] at hres
    obtain ⟨hkeys0, ⟨srow0, hsrow0⟩, hdisj⟩ := resolveBoot_ok_info st i u0 s0 st0 hb
    by_cases hp : mget s0.metadata "pending_switch_to_user_id" = ""
    · rw [resolveAfterBoot_no_pending st0 i u0 s0 hp] at hres
      injection hres with hres2
      have hmain := resolveCandidatesAndPatch_regex_only st0 i u0 u' s0 srow0 r st'
        hsrow0 hres2
      rw [hkeys0] at hmain
      exact ⟨hmain.1, fun hne => ⟨(hmain.2 hne).1, Or.inr (hmain.2 hne).2⟩⟩
    · have hst0 : st0 = st := by
        rcases hdisj with h | h
        · exact h
        · rw [h] at hp
          exact absurd (mget_nil _) hp
      rw [hst0] at hres hsrow0
      by_cases hc : goTrim (goLower i.userText) = "switch" ∨
          goTrim (goLower i.userText) = "yes" ∨
          goTrim (goLower i.userText) = "confirm" ∨
          goTrim (goLower i.userText) = "use that account"
      · cases hu2 : ((st.patchUserSession i.sessionID
            (some (mget s0.metadata "pending_switch_to_user_id"))
            (some (clearPending s0.metadata))).insertEvent
            (mget s0.metadata "pending_switch_to_user_id")
            "identity.switch_confirmed").getAppUserByID
            (mget s0.metadata "pending_switch_to_user_id") with
        | none =>
          rw [resolveAfterBoot_switched_missing st _ i u0 s0 _ _
            (handlePendingSwitch_confirm st s0 u0 i
              (mget s0.metadata "pending_switch_to_user_id") rfl hp hc) hp hu2] at hres
          exact Except.noConfusion hres
        | some u2 =>
          rw [resolveAfterBoot_switched st _ i u0 u2 s0 _ _
            (handlePendingSwitch_confirm st s0 u0 i
              (mget s0.metadata "pending_switch_to_user_id") rfl hp hc) hp hu2] at hres
          injection hres with hres2
          have hsrowP : ((st.patchUserSession i.sessionID
              (some (mget s0.metadata "pending_switch_to_user_id"))
              (some (clearPending s0.metadata))).insertEvent
              (mget s0.metadata "pending_switch_to_user_id")
              "identity.switch_confirmed").getUserSession i.sessionID =
              some { srow0 with
                userId := mget s0.metadata "pending_switch_to_user_id",
                metadata := clearPending s0.metadata } := by
            rw [getUserSession_insertEvent, getUserSession_patchUserSession, hsrow0]
            rfl
          have hmain := resolveCandidatesAndPatch_regex_only _ i u2 u' _ _ r st'
            hsrowP hres2
          rw [identityKeys_insertEvent, identityKeys_patchUserSession] at hmain
          exact ⟨hmain.1, fun hne => ⟨(hmain.2 hne).1, Or.inr (hmain.2 hne).2⟩⟩
      · by_cases hd : goTrim (goLower i.userText) = "guest" ∨
            goTrim (goLower i.userText) = "no" ∨
            goTrim (goLower i.userText) = "stay" ∨
            goTrim (goLower i.userText) = "continue"
        · rw [resolveAfterBoot_declined st _ i u0 s0 _
            (handlePendingSwitch_decline st s0 u0 i
              (mget s0.metadata "pending_switch_to_user_id") rfl hp hd)] at hres
          injection hres with hres2
          have hsrowP : ((st.patchUserSession i.sessionID none
              (some (clearPending s0.metadata))).insertEvent u0.id
              "identity.switch_declined").getUserSession i.sessionID =
              some { srow0 with metadata := clearPending s0.metadata } := by
            rw [getUserSession_insertEvent, getUserSession_patchUserSession, hsrow0]
            rfl
          have hmain := resolveCandidatesAndPatch_regex_only _ i u0 u' _ _ r st'
            hsrowP hres2
          rw [identityKeys_insertEvent, identityKeys_patchUserSession] at hmain
          exact ⟨hmain.1, fun hne => ⟨(hmain.2 hne).1, Or.inr (hmain.2 hne).2⟩⟩
        · rw [resolveAfterBoot_of_interrupt st i u0 s0 _
            (handlePendingSwitch_other st s0 u0 i
              (mget s0.metadata "pending_switch_to_user_id") rfl hp hc hd)
            (by show identityConflictReply ≠ ""; decide)] at hres
          injection hres with hres2
          simp only [Prod.mk.injEq] at hres2
          obtain ⟨hu, hr, hst⟩ := hres2
          constructor
          · intro row hrow
            rw [← hst] at hrow
            exact Or.inl hrow
          · intro hne
            exact ⟨hr.symm, Or.inl hst.symm⟩

/-- The concrete store of the C10 witness: a fresh anonymous session. -/
def c10Store : Store :=
  { sessions := [⟨"s2", "u1", []⟩], users := [{ id := "u1", anonymousId := "s2" }] }

/-- The inbound message of the C10 witness. -/
def c10Inbound : Inbound := { sessionID := "s2", userText := "my email is a@B.com" }

/-- The user row after the C10 witness turn. -/
def c10UserAfter : AppUser :=
  { id := "u1", anonymousId := "s2", email := "a@b.com", identityTier := 2,
    identityStatus := "identified", confidenceScore := 80, primaryIdentifier := "a@b.com" }

/-- The store after the C10 witness turn. -/
def c10StoreAfter : Store :=
  { sessions := [⟨"s2", "u1", []⟩], users := [c10UserAfter],
    identityKeys := [⟨"u1", "email", "a@b.com", false⟩],
    events := [⟨"u1", "identity.key_added"⟩, ⟨"u1", "identity.resolved"⟩] }

/-- Witness for C10: on a concrete turn that adds the key `a@b.com`, the
added row matches a candidate of the LLM-free extraction. -/
theorem c10_candidates_regex_only_witness :
    (⟨"u1", "email", "a@b.com", false⟩ : IdentityKeyRow) ∈ c10Store.identityKeys ∨
    ∃ c ∈ buildIdentityCandidates (extractFactsCore none c10Inbound).1,
      ("email" : String) = c.keyType ∧ ("a@b.com" : String) = c.keyValue := by
  have h := c10_candidates_regex_only c10Store c10Inbound c10UserAfter "" c10StoreAfter
    (by rfl)
  exact h.1 ⟨"u1", "email", "a@b.com", false⟩ (by decide)

/-! ## Claim C3: the idempotency gate -/

theorem idemKeys_processCandidates (user : AppUser) (session : UserSession)
    (sid : String) (cs : List IdentityCandidate) :
    ∀ st : Store, ((processCandidates user session sid st cs).1).idemKeys = st.idemKeys := by
  induction cs with
  | nil => intro st; rfl
  | cons c0 rest ih =>
    intro st
    cases hl : st.lookupIdentityKey c0.keyType c0.keyValue with
    | some found =>
      unfold processCandidates
      simp only [hl]
      by_cases hc : found.userId ≠ "" ∧ found.userId ≠ user.id
      · rw [if_pos hc]
        rfl
      · rw [if_neg hc]
        exact ih st
    | none =>
      unfold processCandidates
      simp only [hl]
      rw [ih _, idemKeys_insertEvent, idemKeys_insertIdentityKey]

theorem idemKeys_handlePendingSwitch (st : Store) (session : UserSession)
    (user : AppUser) (i : Inbound) :
    (handlePendingSwitch st session user i).store.idemKeys = st.idemKeys := by
  simp only [handlePendingSwitch]
  repeat' split
  all_goals rfl

theorem idemKeys_resolveBoot (st : Store) (i : Inbound) (u : AppUser)
    (s : UserSession) (st' : Store) (h : resolveBoot st i = .ok (u, s, st')) :
    st'.idemKeys = st.idemKeys := by
  unfold resolveBoot at h
  cases hs : st.getUserSession i.sessionID with
  | none =>
    simp only [hs] at h
    rcases hca : st.createAnonymousUser i.sessionID with ⟨u0, st1⟩
    rw [hca] at h
    simp only [Except.ok.injEq, Prod.mk.injEq] at h
    obtain ⟨-, -, hst⟩ := h
    rw [← hst, idemKeys_upsertUserSession]
    have := idemKeys_createAnonymousUser st i.sessionID
    rw [hca] at this
    exact this
  | some session =>
    simp only [hs] at h
    cases hu : st.getAppUserByID session.userId with
    | some u0 =>
      simp only [hu, Except.ok.injEq, Prod.mk.injEq] at h
      obtain ⟨-, -, hst⟩ := h
      rw [← hst]
    | none => simp [hu] at h

theorem idemKeys_resolveCandidatesAndPatch (st : Store) (i : Inbound)
    (user : AppUser) (session : UserSession) :
    ((resolveCandidatesAndPatch st i user session).2.2).idemKeys = st.idemKeys := by
  unfold resolveCandidatesAndPatch
  rcases hpc : processCandidates user session i.sessionID st
      (buildIdentityCandidates (extractFactsCore none i).1) with ⟨stX, oX⟩
  have hX : stX.idemKeys = st.idemKeys := by
    have := idemKeys_processCandidates user session i.sessionID
      (buildIdentityCandidates (extractFactsCore none i).1) st
    rw [hpc] at this
    exact this
  cases oX with
  | some interrupt => simp only [hpc]; exact hX
  | none =>
    simp only [hpc]
    rcases hbf : backfillUser user ((extractFactsCore none i).1) with ⟨u2, pe, pp, pn⟩
    rcases hds : deriveIdentityState u2 i.sessionID with ⟨tier, status, conf, primary⟩
    simp only [hbf, hds]
    rw [idemKeys_insertEvent, idemKeys_upsertUserSession, idemKeys_updateAppUser]
    exact hX

theorem idemKeys_resolveAfterBoot (st : Store) (i : Inbound) (user : AppUser)
    (session : UserSession) (u : AppUser) (r : String) (st' : Store)
    (h : resolveAfterBoot st i user session = .ok (u, r, st')) :
    st'.idemKeys = st.idemKeys := by
  unfold resolveAfterBoot at h
  have hpo := idemKeys_handlePendingSwitch st session user i
  set po := handlePendingSwitch st session user i with hdef
  by_cases h1 : po.interrupt ≠ ""
  · rw [if_pos h1] at h
    simp only [Except.ok.injEq, Prod.mk.injEq] at h
    obtain ⟨-, -, hst⟩ := h
    rw [← hst]
    exact hpo
  · rw [if_neg h1] at h
    by_cases h2 : po.switchedTo ≠ ""
    · rw [if_pos h2] at h
      cases hu2 : po.store.getAppUserByID po.switchedTo with
      | some u2 =>
        simp only [hu2, Except.ok.injEq] at h
        have hk := idemKeys_resolveCandidatesAndPatch po.store i u2
          { po.session with userId := po.switchedTo }
        rw [h] at hk
        exact hk.trans hpo
      | none => simp [hu2] at h
    · rw [if_neg h2] at h
      simp only [Except.ok.injEq] at h
      have hk := idemKeys_resolveCandidatesAndPatch po.store i user po.session
      rw [h] at hk
      exact hk.trans hpo

theorem idemKeys_resolveIdentity (st : Store) (i : Inbound) (u : AppUser)
    (r : String) (st' : Store) (h : resolveIdentity st i = .ok (u, r, st')) :
    st'.idemKeys = st.idemKeys := by
  unfold resolveIdentity at h
  cases hb : resolveBoot st i with
  | error e => simp [hb] at h
  | ok x =>
    rcases x with ⟨u0, s0, st0⟩
    simp only [hb] at h
    exact (idemKeys_resolveAfterBoot st0 i u0 s0 u r st' h).trans
      (idemKeys_resolveBoot st i u0 s0 st0 hb)

theorem idemKeys_persistAssistant (st : Store) (conv : Conversation)
    (intent reply : String) :
    (persistAssistant st conv intent reply).idemKeys = st.idemKeys := by
  unfold persistAssistant
  rw [idemKeys_updateConversation, idemKeys_insertMessage]

theorem idemKeys_handleResolved (rt : Router) (st : Store) (i : Inbound)
    (user : AppUser) (conv : Conversation) (res : RouteResult) (st' : Store)
    (log : List String) (h : rt.handleResolved st i user conv = .ok (res, st', log)) :
    st'.idemKeys = st.idemKeys := by
  unfold Router.handleResolved at h
  rcases hef : extractFactsCore rt.llmExtract i with ⟨facts, exErr⟩
  rcases hrs : resolveSpec rt (classifyIntent i.userText) with ⟨intent, spec⟩
  simp only [hef, hrs] at h
  by_cases hm : missingFields spec (mergeFacts conv.facts facts) i ≠ []
  · rw [if_pos hm] at h
    simp only [Except.ok.injEq, Prod.mk.injEq] at h
    obtain ⟨-, hst, -⟩ := h
    rw [← hst, idemKeys_persistAssistant]
  · rw [if_neg hm] at h
    rcases het : executeToolsIfNeeded rt intent spec user
        (conv.withFacts (mergeFacts conv.facts facts)) (mergeFacts conv.facts facts)
        (st.fetchRecentMessages conv.id 10) i.userText with ⟨toolOut, log0⟩
    rw [het] at h
    simp only [Except.ok.injEq, Prod.mk.injEq] at h
    obtain ⟨-, hst, -⟩ := h
    rw [← hst, idemKeys_persistAssistant]

theorem idemKeys_handleAfterGate (rt : Router) (st : Store) (i : Inbound)
    (res : RouteResult) (st' : Store) (log : List String)
    (h : rt.handleAfterGate st i = .ok (res, st', log)) :
    st'.idemKeys = st.idemKeys := by
  unfold Router.handleAfterGate at h
  cases hri : resolveIdentity st i with
  | error e => simp [hri] at h
  | ok x =>
    rcases x with ⟨user, ir, st1⟩
    simp only [hri] at h
    rcases hconv : st1.getOrCreateOpenConversation user.id i.sessionID i.channel i.locale
      with ⟨conv, st2⟩
    rw [hconv] at h
    have h12 : st2.idemKeys = st1.idemKeys := by
      have := idemKeys_getOrCreateOpenConversation st1 user.id i.sessionID i.channel i.locale
      rw [hconv] at this
      exact this
    have h01 : st1.idemKeys = st.idemKeys := idemKeys_resolveIdentity st i user ir st1 hri
    by_cases hir : ir ≠ ""
    · rw [if_pos hir] at h
      simp only [Except.ok.injEq, Prod.mk.injEq] at h
      obtain ⟨-, hst, -⟩ := h
      rw [← hst, idemKeys_insertMessage, idemKeys_insertMessage]
      exact h12.trans h01
    · rw [if_neg hir] at h
      have := idemKeys_handleResolved rt (st2.insertMessage conv.id "user" i.userText) i
        user conv res st' log h
      rw [idemKeys_insertMessage] at this
      exact this.trans (h12.trans h01)

/-- C3: when an inbound message carries a channel-native message id whose
idempotency key is already recorded, the router short-circuits with the
fixed duplicate-ignored reply, invokes no integration, and mutates nothing
at all — in particular no second user Message row is persisted; and the
first delivery of any message id records the key, so an identical
redelivery hits the gate. -/
theorem c3_idempotency_gate (rt : Router) (st : Store) (i : Inbound) (key : String)
    (hkey : key = "wa_msg:" ++ i.whatsAppMsgID) (hmsg : i.whatsAppMsgID ≠ "") :
    (key ∈ st.idemKeys →
      rt.handle st i =
        .ok (⟨"other", duplicateIgnoredReply, "", [], ""⟩, st, [])) ∧
    (∀ res st' log, rt.handle st i = .ok (res, st', log) → key ∈ st'.idemKeys) := by
  subst hkey
  constructor
  · intro hmem
    unfold Router.handle
    rw [if_pos hmsg]
    have hup : st.upsertIdempotency ("wa_msg:" ++ i.whatsAppMsgID) = (true, st) := by
      unfold Store.upsertIdempotency
      rw [if_pos (List.elem_eq_true_of_mem hmem)]
    rw [hup]
    rfl
  · intro res st' log h
    unfold Router.handle at h
    rw [if_pos hmsg] at h
    by_cases hc : st.idemKeys.contains ("wa_msg:" ++ i.whatsAppMsgID)
    · have hup : st.upsertIdempotency ("wa_msg:" ++ i.whatsAppMsgID) = (true, st) := by
        unfold Store.upsertIdempotency
        rw [if_pos hc]
      rw [hup] at h
      have h3 : ((⟨"other", duplicateIgnoredReply, "", [], ""⟩ : RouteResult), st,
          ([] : List String)) = (res, st', log) := Except.ok.inj h
      have hst : st = st' := congrArg (fun p => p.2.1) h3
      rw [← hst]
      exact List.mem_of_elem_eq_true hc
    · have hup : st.upsertIdempotency ("wa_msg:" ++ i.whatsAppMsgID) =
          (false, { st with idemKeys := st.idemKeys ++ ["wa_msg:" ++ i.whatsAppMsgID] }) := by
        unfold Store.upsertIdempotency
        rw [if_neg hc]
      rw [hup] at h
      simp only [Bool.false_eq_true, if_false] at h
      have := idemKeys_handleAfterGate rt _ i res st' log h
      rw [this]
      simp

/-- The router of the C3 witness. -/
def c3Router : Router := { specs := RoutingTable }

/-- The store of the C3 witness: the message id `m1` is already recorded. -/
def c3Store : Store := { idemKeys := ["wa_msg:m1"] }

/-- The redelivered inbound message of the C3 witness. -/
def c3Inbound : Inbound :=
  { channel := "whatsapp_meta", sessionID := "wa:15551234567", userText := "hi",
    whatsAppMsgID := "m1", whatsAppFrom := "+15551234567" }

/-- Witness for C3: a concrete redelivery yields the duplicate-ignored reply
and leaves the store untouched. -/
theorem c3_idempotency_gate_witness :
    c3Router.handle c3Store c3Inbound =
      .ok (⟨"other", duplicateIgnoredReply, "", [], ""⟩, c3Store, []) :=
  (c3_idempotency_gate c3Router c3Store c3Inbound "wa_msg:m1" rfl (by decide)).1
    (by decide)

/-! ## Claim C5: the slot-filling gate -/

/-- With no channel-native message id, the idempotency gate is a no-op. -/
theorem handle_no_gate (rt : Router) (st : Store) (i : Inbound)
    (hmsg : i.whatsAppMsgID = "") : rt.handle st i = rt.handleAfterGate st i := by
  unfold Router.handle
  rw [if_neg (by simp [hmsg])]
  rfl

/-- After a resolved identity with no interrupt, the turn is the
post-resolution logic on the store holding the fresh user message. -/
theorem handleAfterGate_resolved (rt : Router) (st : Store) (i : Inbound)
    (u : AppUser) (st1 : Store) (conv : Conversation) (st2 : Store)
    (hres : resolveIdentity st i = .ok (u, "", st1))
    (hconv : st1.getOrCreateOpenConversation u.id i.sessionID i.channel i.locale =
      (conv, st2)) :
    rt.handleAfterGate st i =
      rt.handleResolved (st2.insertMessage conv.id "user" i.userText) i u conv := by
  unfold Router.handleAfterGate
  simp only [hres]
  rw [hconv]
  rfl

/-- The slot-filling gate: unmet requirements end the turn with the
clarifying reply and no integration call. -/
theorem handleResolved_missing (rt : Router) (st : Store) (i : Inbound)
    (user : AppUser) (conv : Conversation) (facts : List (String × String))
    (exErr intent : String) (spec : IntentSpec)
    (hef : extractFactsCore rt.llmExtract i = (facts, exErr))
    (hspec : resolveSpec rt (classifyIntent i.userText) = (intent, spec))
    (hne : missingFields spec (mergeFacts conv.facts facts) i ≠ []) :
    rt.handleResolved st i user conv =
      .ok (⟨intent,
          askForMissing spec (missingFields spec (mergeFacts conv.facts facts) i),
          conv.id, facts, exErr⟩,
        persistAssistant st (conv.withFacts (mergeFacts conv.facts facts)) intent
          (askForMissing spec (missingFields spec (mergeFacts conv.facts facts) i)),
        []) := by
  unfold Router.handleResolved
  simp only [hef, hspec]
  rw [if_pos hne]
  rfl

/-- C5: a turn whose intent has unmet required fields replies with
`askForMissing` — the intent's first configured clarifying question, one per
turn, or the generic comma-joined missing-field list when none is
configured — and invokes zero integrations; and for `order_status` the gate
is unmet exactly when none of order-id, email, phone is present, where a
channel-supplied phone counts as phone even when absent from the fact map. -/
theorem c5_slot_filling_gate :
    (∀ (rt : Router) (st : Store) (i : Inbound) (u : AppUser) (st1 : Store)
      (conv : Conversation) (st2 : Store) (facts : List (String × String))
      (exErr intent : String) (spec : IntentSpec),
      i.whatsAppMsgID = "" →
      resolveIdentity st i = .ok (u, "", st1) →
      st1.getOrCreateOpenConversation u.id i.sessionID i.channel i.locale = (conv, st2) →
      extractFactsCore rt.llmExtract i = (facts, exErr) →
      resolveSpec rt (classifyIntent i.userText) = (intent, spec) →
      missingFields spec (mergeFacts conv.facts facts) i ≠ [] →
      rt.handle st i =
        .ok (⟨intent,
            askForMissing spec (missingFields spec (mergeFacts conv.facts facts) i),
            conv.id, facts, exErr⟩,
          persistAssistant (st2.insertMessage conv.id "user" i.userText)
            (conv.withFacts (mergeFacts conv.facts facts)) intent
            (askForMissing spec (missingFields spec (mergeFacts conv.facts facts) i)),
          [])) ∧
    (∀ (spec : IntentSpec) (missing : List String),
      (spec.clarifyQuestions ≠ [] →
        askForMissing spec missing = spec.clarifyQuestions.headD "") ∧
      (spec.clarifyQuestions = [] →
        askForMissing spec missing = "I need a bit more info: " ++ goJoin ", " missing)) ∧
    (∀ (facts : List (String × String)) (i : Inbound),
      (mget facts "order_id" = "" → mget facts "email" = "" → mget facts "phone" = "" →
        i.whatsAppFrom = "" → missingFields orderStatusSpec facts i = ["order_id"]) ∧
      (i.whatsAppFrom ≠ "" → missingFields orderStatusSpec facts i = [])) := by
  refine ⟨?_, ?_, ?_⟩
  · intro rt st i u st1 conv st2 facts exErr intent spec hmsg hres hconv hef hspec hne
    rw [handle_no_gate rt st i hmsg,
      handleAfterGate_resolved rt st i u st1 conv st2 hres hconv,
      handleResolved_missing rt _ i u conv facts exErr intent spec hef hspec hne]
  · intro spec missing
    constructor
    · intro h
      cases hq : spec.clarifyQuestions with
      | nil => exact absurd hq h
      | cons q qs => simp [askForMissing, hq]
    · intro h
      simp [askForMissing, h]
  · intro facts i
    constructor
    · intro h1 h2 h3 h4
      simp [missingFields, orderStatusSpec, fieldOk, uniqueFields, h1, h2, h3, h4]
    · intro h4
      have hb : (i.whatsAppFrom != "") = true := by simp [bne, h4]
      simp [missingFields, orderStatusSpec, fieldOk, hb, uniqueFields]

/-- The router of the C5 witness. -/
def c5Router : Router := { specs := RoutingTable }

/-- The store of the C5 witness: a bound session and an open conversation. -/
def c5Store : Store :=
  { sessions := [⟨"s1", "u1", []⟩], users := [{ id := "u1", anonymousId := "s1" }],
    conversations := [⟨"c1", "u1", "open", "", "", "web", "en", []⟩] }

/-- The inbound message of the C5 witness: order-status intent, no facts. -/
def c5Inbound : Inbound :=
  { channel := "web", locale := "en", sessionID := "s1", userText := "where is my order" }

/-- Witness for C5: the concrete turn replies with the order-status spec's
first clarifying question and invokes no integration. -/
theorem c5_slot_filling_gate_witness :
    (match c5Router.handle c5Store c5Inbound with
      | .ok (res, _, log) =>
        res.intent = "order_status" ∧
        res.reply = "Please share your Order ID (best). If you don’t have it, share the email or phone used at checkout." ∧
        log = []
      | .error _ => False) := by
  rw [c5_slot_filling_gate.1 c5Router c5Store c5Inbound _ _ _ _ _ _ _ _ rfl rfl rfl rfl
    rfl (by decide)]
  exact ⟨rfl, rfl, rfl⟩

/-! ## Claim C9: integration failure falls back to the LLM reply -/

/-- A failed integration call is converted into the language-model fallback
reply; the turn succeeds. -/
theorem handleResolved_toolError (rt : Router) (st : Store) (i : Inbound)
    (user : AppUser) (conv : Conversation) (facts : List (String × String))
    (exErr intent : String) (spec : IntentSpec) (e : String) (log : List String)
    (hef : extractFactsCore rt.llmExtract i = (facts, exErr))
    (hspec : resolveSpec rt (classifyIntent i.userText) = (intent, spec))
    (hmiss : missingFields spec (mergeFacts conv.facts facts) i = [])
    (htool : executeToolsIfNeeded rt intent spec user
        (conv.withFacts (mergeFacts conv.facts facts)) (mergeFacts conv.facts facts)
        (st.fetchRecentMessages conv.id 10) i.userText = (.error e, log)) :
    rt.handleResolved st i user conv =
      .ok (⟨intent,
          llmReply rt intent conv.summary (st.fetchRecentMessages conv.id 10) i.userText
            (mergeFacts conv.facts facts),
          conv.id, facts, exErr⟩,
        persistAssistant st (conv.withFacts (mergeFacts conv.facts facts)) intent
          (llmReply rt intent conv.summary (st.fetchRecentMessages conv.id 10) i.userText
            (mergeFacts conv.facts facts)),
        log) := by
  unfold Router.handleResolved
  simp only [hef, hspec]
  rw [if_neg (show ¬ missingFields spec (mergeFacts conv.facts facts) i ≠ [] from
    fun hh => hh hmiss)]
  rw [htool]
  rfl

/-- C9: on a turn that reaches integration dispatch, if the selected
integration call returns an error, the reply is the language-model fallback
reply — grounded in the conversation summary, the recent history and the
merged facts — and the turn does not fail: the integration error is never
surfaced. -/
theorem c9_tool_error_fallback (rt : Router) (st : Store) (i : Inbound) (u : AppUser)
    (st1 : Store) (conv : Conversation) (st2 : Store)
    (facts : List (String × String)) (exErr intent : String) (spec : IntentSpec)
    (e : String) (log : List String)
    (hmsg : i.whatsAppMsgID = "")
    (hres : resolveIdentity st i = .ok (u, "", st1))
    (hconv : st1.getOrCreateOpenConversation u.id i.sessionID i.channel i.locale =
      (conv, st2))
    (hef : extractFactsCore rt.llmExtract i = (facts, exErr))
    (hspec : resolveSpec rt (classifyIntent i.userText) = (intent, spec))
    (hmiss : missingFields spec (mergeFacts conv.facts facts) i = [])
    (htool : executeToolsIfNeeded rt intent spec u
        (conv.withFacts (mergeFacts conv.facts facts)) (mergeFacts conv.facts facts)
        ((st2.insertMessage conv.id "user" i.userText).fetchRecentMessages conv.id 10)
        i.userText = (.error e, log)) :
    rt.handle st i =
      .ok (⟨intent,
          llmReply rt intent conv.summary
            ((st2.insertMessage conv.id "user" i.userText).fetchRecentMessages conv.id 10)
            i.userText (mergeFacts conv.facts facts),
          conv.id, facts, exErr⟩,
        persistAssistant (st2.insertMessage conv.id "user" i.userText)
          (conv.withFacts (mergeFacts conv.facts facts)) intent
          (llmReply rt intent conv.summary
            ((st2.insertMessage conv.id "user" i.userText).fetchRecentMessages conv.id 10)
            i.userText (mergeFacts conv.facts facts)),
        log) := by
  rw [handle_no_gate rt st i hmsg,
    handleAfterGate_resolved rt st i u st1 conv st2 hres hconv,
    handleResolved_toolError rt _ i u conv facts exErr intent spec e log hef hspec hmiss
      htool]

/-- The router of the C9 witness: Shopify lookups fail, the language model
answers. -/
def c9Router : Router :=
  { specs := RoutingTable, llmChat := fun _ _ _ _ => .ok "fallback reply",
    tools := some { shopify := some (fun _ => .error "boom") } }

/-- The store of the C9 witness. -/
def c9Store : Store :=
  { sessions := [⟨"s1", "u1", []⟩], users := [{ id := "u1", anonymousId := "s1" }],
    conversations := [⟨"c1", "u1", "open", "", "", "web", "en", []⟩] }

/-- The inbound message of the C9 witness: order-status intent with an
order id, so the gate passes and the failing lookup is dispatched. -/
def c9Inbound : Inbound :=
  { channel := "web", locale := "en", sessionID := "s1", userText := "track order 12345" }

/-- Witness for C9: the concrete failing lookup yields the language-model
fallback reply and the turn succeeds. -/
theorem c9_tool_error_fallback_witness :
    (match c9Router.handle c9Store c9Inbound with
      | .ok (res, _, log) =>
        res.intent = "order_status" ∧ res.reply = "fallback reply" ∧ log = ["shopify"]
      | .error _ => False) := by
  rw [c9_tool_error_fallback c9Router c9Store c9Inbound _ _ _ _ _ _ _ _ _ _ rfl rfl rfl
    rfl rfl rfl rfl]
  exact ⟨rfl, rfl, rfl⟩

end Chatbot
